import Mathlib

/-!
Shallow embedding of the clinical extraction engine of ER-Voice2Text
(backend/services/clinical_extraction.py, ner_service.py, nvidia_nim.py).

Python strings are modelled as `String`/`List Char`, dictionaries as
association lists in insertion order, floats as `ℚ`, and raised-then-caught
exceptions as `Option`.  External collaborators (the transformers NER
pipeline, the json stdlib parser, the wall clock) are passed in as explicit
oracle parameters; everything else is translated from the source.
Each `re.search`/`re.findall` call of the source is embedded as an explicit
backtracking scanner with Python's leftmost-then-greedy semantics.
Where Python iterates a `set` (whose order is unspecified) the embedding
fixes first-insertion order; only membership and cardinality of such lists
are used by the theorems.
-/

/-- Python `\s` (ASCII whitespace as produced by this pipeline). -/
def pySpace (c : Char) : Bool :=
  c == ' ' || c == '\t' || c == '\n' || c == '\r' || c == '\x0b' || c == '\x0c'

/-- Python `str.lower` on one character (ASCII). -/
def pyLowerChar (c : Char) : Char :=
  if 'A' ≤ c ∧ c ≤ 'Z' then Char.ofNat (c.toNat + 32) else c

/-- Python `str.lower` (ASCII). -/
def pyLower (s : String) : String :=
  String.mk (s.data.map pyLowerChar)

/-- Python `str.strip` on a character list. -/
def pyStripList (cs : List Char) : List Char :=
  ((cs.dropWhile pySpace).reverse.dropWhile pySpace).reverse

/-- Python `str.strip`. -/
def pyStrip (s : String) : String :=
  String.mk (pyStripList s.data)

/-- Does `hay` start with `needle`? -/
def leadsWith : List Char → List Char → Bool
  | [], _ => true
  | _ :: _, [] => false
  | t :: ts, c :: cs => c == t && leadsWith ts cs

/-- Python `needle in hay` (substring test) on character lists. -/
def containsSub (needle : List Char) : List Char → Bool
  | [] => leadsWith needle []
  | c :: cs => leadsWith needle (c :: cs) || containsSub needle cs

/-- Python `needle in hay` on strings. -/
def strContains (hay needle : String) : Bool :=
  containsSub needle.data hay.data

/-- Python `hay.split(needle)[0]`: the part before the first occurrence of
`needle` (the whole list when `needle` does not occur). -/
def beforeSub (needle : List Char) : List Char → List Char
  | [] => []
  | c :: cs => if leadsWith needle (c :: cs) then [] else c :: beforeSub needle cs

/-- Python dict lookup `d.get(k)` (first binding wins; real dicts have unique
keys). -/
def dGet (d : List (String × String)) (k : String) : Option String :=
  (d.find? (fun p => p.1 == k)).map (·.2)

/-- Python truthiness of `d.get(k)` for string values: present and non-empty. -/
def dTruthy (d : List (String × String)) (k : String) : Bool :=
  match dGet d k with
  | some v => v ≠ ""
  | none => false

/-- Python dict assignment `d[k] = v`: replace the binding in place, or append
a fresh one in insertion order. -/
def dSet (d : List (String × String)) (k v : String) : List (String × String) :=
  if d.any (fun p => p.1 == k) then
    d.map (fun p => if p.1 == k then (p.1, v) else p)
  else
    d ++ [(k, v)]

/-- The key list of a dict, in insertion order. -/
def dKeys (d : List (String × String)) : List String :=
  d.map (·.1)

/-- Deduplication keeping the first occurrence, with the already-seen
elements accumulated (structural recursion so closed terms evaluate). -/
def dedupFirstAux (seen : List String) : List String → List String
  | [] => []
  | x :: xs =>
    if x ∈ seen then dedupFirstAux seen xs
    else x :: dedupFirstAux (seen ++ [x]) xs

/-- Deduplication keeping the first occurrence (the embedding's fixed order
for Python's unordered `list(set(..))` / set union). -/
def dedupFirst (l : List String) : List String := dedupFirstAux [] l

/-- The decimal digit character of `n % 10`-style values (`n < 10`). -/
def digitChar10 : Nat → Char
  | 0 => '0' | 1 => '1' | 2 => '2' | 3 => '3' | 4 => '4'
  | 5 => '5' | 6 => '6' | 7 => '7' | 8 => '8' | _ => '9'

/-- Decimal digit characters, with fuel for structural recursion (any fuel
above the digit count gives the same answer). -/
def natCharsF : Nat → Nat → List Char
  | 0, _ => []
  | fuel + 1, n =>
    if n < 10 then [digitChar10 n]
    else natCharsF fuel (n / 10) ++ [digitChar10 (n % 10)]

/-- Decimal digit characters of a natural number (Python `str(n)`). -/
def natChars (n : Nat) : List Char := natCharsF (n + 1) n

/-- Python `str(n)` for naturals. -/
def natStr (n : Nat) : String :=
  String.mk (natChars n)

/-- Python `str(i)` for integers. -/
def intStr (i : Int) : String :=
  if i < 0 then String.mk ('-' :: natChars i.natAbs) else natStr i.natAbs

/-- Numeric value of a digit character. -/
def digitVal (c : Char) : Nat := c.toNat - 48

/-- Numeric value of a digit string (Python `int` on a digit run). -/
def digitsToNat (cs : List Char) : Nat :=
  cs.foldl (fun acc c => acc * 10 + digitVal c) 0

/-- Truncation toward zero (Python `int(float)`), computed on the reduced
numerator and denominator so closed terms evaluate. -/
def truncQ (q : ℚ) : Int :=
  if q.num < 0 then -((q.num.natAbs / q.den : Nat) : Int)
  else ((q.num.natAbs / q.den : Nat) : Int)

/-! ### Scanner combinators (Python `re` semantics: leftmost match, greedy
bounded repetition with backtracking into the continuation). -/

/-- Greedy `p{lo,hi}` repetition: consume as many `p`-characters as possible
(at most `hi`), backtracking one at a time into the continuation `k`, which
receives the captured run and the rest. -/
def repGreedy (p : Char → Bool) : Nat → Nat → List Char →
    (List Char → List Char → Option β) → Option β
  | lo, hi + 1, c :: rest, k =>
    if p c then
      match repGreedy p (lo - 1) hi rest (fun g r => k (c :: g) r) with
      | some v => some v
      | none => if lo = 0 then k [] (c :: rest) else none
    else if lo = 0 then k [] (c :: rest) else none
  | lo, _, cs, k => if lo = 0 then k [] cs else none

/-- Greedy `p+` (unbounded). -/
def repPlus (p : Char → Bool) (cs : List Char)
    (k : List Char → List Char → Option β) : Option β :=
  repGreedy p 1 cs.length cs k

/-- Greedy `p*` where the following pattern cannot start with a
`p`-character (all uses in this source have that shape, so no backtracking
is needed). -/
def skipWs (cs : List Char) : List Char :=
  cs.dropWhile pySpace

/-- Match a literal character sequence, returning the rest. -/
def litRest : List Char → List Char → Option (List Char)
  | [], cs => some cs
  | t :: ts, c :: cs => if c == t then litRest ts cs else none
  | _ :: _, [] => none

/-- `re.search`: try the position matcher at each start position, leftmost
first (including the end-of-string position). -/
def searchAll (m : List Char → Option β) : List Char → Option β
  | [] => m []
  | c :: cs =>
    match m (c :: cs) with
    | some r => some r
    | none => searchAll m cs

/-- Capture `\d+(?:[.,]\d+)?` at the current position (the full captured
text, commas kept as in the source). -/
def numCommaAt (cs : List Char) : Option (List Char × List Char) :=
  repPlus Char.isDigit cs (fun d1 r1 =>
    match r1 with
    | c :: r2 =>
      if c == '.' || c == ',' then
        match repPlus Char.isDigit r2 (fun d2 r3 => some (d1 ++ c :: d2, r3)) with
        | some v => some v
        | none => some (d1, r1)
      else some (d1, r1)
    | [] => some (d1, r1))

/-- Python `float()` on the decimal forms this pipeline produces
(optional surrounding whitespace, optional sign, digits with an optional
fractional part, optional decimal exponent); other inputs are a
`ValueError`, i.e. `none`. -/
def parsePyFloat (s : String) : Option ℚ :=
  let cs := pyStripList s.data
  let (neg, cs) : Bool × List Char :=
    match cs with
    | '-' :: r => (true, r)
    | '+' :: r => (false, r)
    | _ => (false, cs)
  let ip := cs.takeWhile Char.isDigit
  let cs1 := cs.dropWhile Char.isDigit
  let (fp, cs2) : List Char × List Char :=
    match cs1 with
    | '.' :: r => (r.takeWhile Char.isDigit, r.dropWhile Char.isDigit)
    | _ => ([], cs1)
  if ip = [] ∧ fp = [] then none
  else
    let mantissa : Nat := digitsToNat ip * 10 ^ fp.length + digitsToNat fp
    let mkVal : Nat → Nat → Option ℚ := fun num den =>
      some (mkRat (if neg then -(num : Int) else (num : Int)) den)
    match cs2 with
    | [] => mkVal mantissa (10 ^ fp.length)
    | e :: r =>
      if e == 'e' || e == 'E' then
        let (eneg, r') : Bool × List Char :=
          match r with
          | '-' :: r2 => (true, r2)
          | '+' :: r2 => (false, r2)
          | _ => (false, r)
        let ed := r'.takeWhile Char.isDigit
        if ed = [] ∨ r'.dropWhile Char.isDigit ≠ [] then none
        else if eneg then mkVal mantissa (10 ^ fp.length * 10 ^ digitsToNat ed)
        else mkVal (mantissa * 10 ^ digitsToNat ed) (10 ^ fp.length)
      else none

/-- `String.mk` shorthand for captured groups. -/
def chStr (cs : List Char) : String := String.mk cs

/-- Python `str.isdigit`. -/
def pyIsDigit (cs : List Char) : Bool := !cs.isEmpty && cs.all Char.isDigit

/-- `replace(',', '.')` on one character. -/
def commaToDot (c : Char) : Char := if c == ',' then '.' else c

/-- ASCII letter (the `[a-zA-Z]` class). -/
def asciiAlpha (c : Char) : Bool :=
  ('a' ≤ c && c ≤ 'z') || ('A' ≤ c && c ≤ 'Z')

/-- Python `\w` (ASCII fragment actually exercised by this pipeline). -/
def wordChar (c : Char) : Bool := asciiAlpha c || c.isDigit || c == '_'

/-- `\s+` followed by a non-space pattern: demand one space, swallow the rest. -/
def wsPlus : List Char → Option (List Char)
  | c :: rest => if pySpace c then some (rest.dropWhile pySpace) else none
  | [] => none

/-- Python `str.split()` (split on whitespace runs, no empty parts), with
fuel for structural recursion (the string length is always sufficient). -/
def splitWsF : Nat → List Char → List String
  | 0, _ => []
  | fuel + 1, cs =>
    match cs.dropWhile pySpace with
    | [] => []
    | c :: rest =>
      chStr (c :: rest.takeWhile (fun x => !pySpace x)) ::
        splitWsF fuel (rest.dropWhile (fun x => !pySpace x))

/-- Python `s.split()`. -/
def pySplitWs (s : String) : List String := splitWsF s.data.length s.data

/-! ### `ner_service.py` -/

/-- One token-classification span (`{'word': .., 'entity_group': ..}`). -/
structure NerEntity where
  word : String
  entityGroup : String
deriving Repr, DecidableEq

/-- `NERService._split_text_into_sentences`: `re.split(r'[.!?:]\s+|[.!?:]$', text.strip())`.
At a delimiter the first alternative (delimiter + whitespace run) is
preferred; the `$` alternative only fires at the true end of the stripped
text (a trailing newline was already stripped). -/
def splitSentencesAux : Nat → List Char → List Char → List String
  | 0, cur, _ => [chStr cur.reverse]
  | _ + 1, cur, [] => [chStr cur.reverse]
  | fuel + 1, cur, c :: rest =>
    if c == '.' || c == '!' || c == '?' || c == ':' then
      match rest with
      | [] => [chStr cur.reverse, ""]
      | r :: rs =>
        if pySpace r then
          chStr cur.reverse :: splitSentencesAux fuel [] (rs.dropWhile pySpace)
        else splitSentencesAux fuel (c :: cur) (r :: rs)
    else splitSentencesAux fuel (c :: cur) rest

/-- `_split_text_into_sentences`: split, then keep stripped sentences of
length &gt; 3. -/
def splitTextIntoSentences (text : String) : List String :=
  (splitSentencesAux text.data.length [] (pyStripList text.data)).filterMap (fun sentence =>
    let cleaned := pyStrip sentence
    if cleaned ≠ "" ∧ 3 < cleaned.length then some cleaned else none)

/-- `_normalize_gender`: the male synonym table. -/
def maleVariants : List String :=
  ["m", "maschio", "maschile", "male", "uomo", "man", "boy", "ragazzo",
   "masculine", "masculino", "homme", "hombre"]

/-- `_normalize_gender`: the female synonym table. -/
def femaleVariants : List String :=
  ["f", "femmina", "femminile", "female", "donna", "woman", "girl", "ragazza",
   "feminine", "feminino", "femme", "mujer"]

/-- `NERService._normalize_gender`. -/
def normalizeGender (text : String) : String :=
  let textLower := pyStrip (pyLower text)
  if textLower ∈ maleVariants then "M"
  else if textLower ∈ femaleVariants then "F"
  else if maleVariants.any (fun v => 1 < v.length && strContains textLower v) then "M"
  else if femaleVariants.any (fun v => 1 < v.length && strContains textLower v) then "F"
  else "O"

/-- The `[\/\-\.]` date separator class. -/
def dateSep (c : Char) : Bool := c == '/' || c == '-' || c == '.'

/-- `(\d{1,2})[\/\-\.](\d{1,2})[\/\-\.](\d{4})` at one position. -/
def dateP1At (cs : List Char) : Option (List Char × List Char × List Char) :=
  repGreedy Char.isDigit 1 2 cs (fun g1 r1 =>
    match r1 with
    | s1 :: r2 =>
      if dateSep s1 then
        repGreedy Char.isDigit 1 2 r2 (fun g2 r3 =>
          match r3 with
          | s2 :: r4 =>
            if dateSep s2 then
              repGreedy Char.isDigit 4 4 r4 (fun g3 _ => some (g1, g2, g3))
            else none
          | [] => none)
      else none
    | [] => none)

/-- `(\d{4})[\/\-\.](\d{1,2})[\/\-\.](\d{1,2})` at one position. -/
def dateP2At (cs : List Char) : Option (List Char × List Char × List Char) :=
  repGreedy Char.isDigit 4 4 cs (fun g1 r1 =>
    match r1 with
    | s1 :: r2 =>
      if dateSep s1 then
        repGreedy Char.isDigit 1 2 r2 (fun g2 r3 =>
          match r3 with
          | s2 :: r4 =>
            if dateSep s2 then
              repGreedy Char.isDigit 1 2 r4 (fun g3 _ => some (g1, g2, g3))
            else none
          | [] => none)
      else none
    | [] => none)

/-- `(\d{1,2})[\/\-\.](\d{1,2})[\/\-\.](\d{2})` at one position. -/
def dateP3At (cs : List Char) : Option (List Char × List Char × List Char) :=
  repGreedy Char.isDigit 1 2 cs (fun g1 r1 =>
    match r1 with
    | s1 :: r2 =>
      if dateSep s1 then
        repGreedy Char.isDigit 1 2 r2 (fun g2 r3 =>
          match r3 with
          | s2 :: r4 =>
            if dateSep s2 then
              repGreedy Char.isDigit 2 2 r4 (fun g3 _ => some (g1, g2, g3))
            else none
          | [] => none)
      else none
    | [] => none)

/-- `zfill(2)`. -/
def zfill2 (cs : List Char) : List Char := if cs.length < 2 then '0' :: cs else cs

/-- The Italian month table of `_normalize_date`, in source (insertion) order. -/
def italianMonths : List (String × Nat) :=
  [("gennaio", 1), ("gen", 1), ("febbraio", 2), ("feb", 2), ("marzo", 3),
   ("mar", 3), ("aprile", 4), ("apr", 4), ("maggio", 5), ("mag", 5),
   ("giugno", 6), ("giu", 6), ("luglio", 7), ("lug", 7), ("agosto", 8),
   ("ago", 8), ("settembre", 9), ("set", 9), ("sett", 9), ("ottobre", 10),
   ("ott", 10), ("novembre", 11), ("nov", 11), ("dicembre", 12), ("dic", 12)]

/-- `(\d{1,2})\s+(\w+)\s+(\d{4})` at one position. -/
def dateWordAt (cs : List Char) : Option (List Char × List Char × List Char) :=
  repGreedy Char.isDigit 1 2 cs (fun g1 r1 =>
    match wsPlus r1 with
    | some r2 =>
      repPlus wordChar r2 (fun g2 r3 =>
        match wsPlus r3 with
        | some r4 => repGreedy Char.isDigit 4 4 r4 (fun g3 _ => some (g1, g2, g3))
        | none => none)
    | none => none)

/-- `(\d{1,2})\s+(\w{3,4})\s+(\d{4})` at one position. -/
def dateAbbrev1At (cs : List Char) : Option (List Char × List Char × List Char) :=
  repGreedy Char.isDigit 1 2 cs (fun g1 r1 =>
    match wsPlus r1 with
    | some r2 =>
      repGreedy wordChar 3 4 r2 (fun g2 r3 =>
        match wsPlus r3 with
        | some r4 => repGreedy Char.isDigit 4 4 r4 (fun g3 _ => some (g1, g2, g3))
        | none => none)
    | none => none)

/-- `(\w{3,4})\s+(\d{1,2}),?\s+(\d{4})` at one position. -/
def dateAbbrev2At (cs : List Char) : Option (List Char × List Char × List Char) :=
  repGreedy wordChar 3 4 cs (fun g1 r1 =>
    match wsPlus r1 with
    | some r2 =>
      repGreedy Char.isDigit 1 2 r2 (fun g2 r3 =>
        let r3' := match r3 with
          | ',' :: t => t
          | _ => r3
        match wsPlus r3' with
        | some r4 => repGreedy Char.isDigit 4 4 r4 (fun g3 _ => some (g1, g2, g3))
        | none => none)
    | none => none)

/-- `NERService._normalize_date`. -/
def normalizeDate (text0 : String) : String :=
  let text := pyLower (pyStrip text0)
  let cs := text.data
  let numericResult : Option String :=
    [searchAll dateP1At cs, searchAll dateP2At cs, searchAll dateP3At cs].foldl
      (fun acc m =>
        match acc with
        | some r => some r
        | none =>
          match m with
          | some (part1, part2, part3) =>
            if part3.length = 4 then
              if 1900 < digitsToNat part3 then
                -- yyyy/mm/dd branch of the source
                some (chStr (part3 ++ '-' :: zfill2 part1 ++ '-' :: zfill2 part2))
              else
                -- dd/mm/yyyy branch
                some (chStr (part3 ++ '-' :: zfill2 part2 ++ '-' :: zfill2 part1))
            else
              let year := if 30 < digitsToNat part3 then '1' :: '9' :: part3
                else '2' :: '0' :: part3
              some (chStr (year ++ '-' :: zfill2 part2 ++ '-' :: zfill2 part1))
          | none => none) none
  match numericResult with
  | some r => r
  | none =>
    let monthResult : Option String :=
      match searchAll dateWordAt cs with
      | some (day, monthName, year) =>
        match italianMonths.find?
            (fun p => strContains (pyLower (chStr monthName)) p.1) with
        | some (_, num) =>
          some (chStr (year ++ '-' :: zfill2 (natChars num) ++ '-' :: zfill2 day))
        | none => none
      | none => none
    match monthResult with
    | some r => r
    | none =>
      let abbrevResult : Option String :=
        [(searchAll dateAbbrev1At cs, false), (searchAll dateAbbrev2At cs, true)].foldl
          (fun acc (m, swapped) =>
            match acc with
            | some r => some r
            | none =>
              match m with
              | some (a, b, year) =>
                let (day, monthAbbr) := if swapped then (b, a) else (a, b)
                match italianMonths.find? (fun p =>
                    strContains p.1 (pyLower (chStr monthAbbr)) ||
                    leadsWith (pyLower (chStr monthAbbr)).data p.1.data) with
                | some (_, num) =>
                  some (chStr (year ++ '-' :: zfill2 (natChars num) ++ '-' :: zfill2 day))
                | none => none
              | none => none) none
      match abbrevResult with
      | some r => r
      | none => text

/-! ### `NERService._extract_with_units` -/

/-- The `(gradi|°c?|celsius)` alternation (alternatives tried left to right,
`c?` greedy). -/
def tempUnitAlt (cs : List Char) : Option (List Char × List Char) :=
  match litRest "gradi".data cs with
  | some r => some ("gradi".data, r)
  | none =>
    match cs with
    | '°' :: 'c' :: r => some (['°', 'c'], r)
    | '°' :: r => some (['°'], r)
    | _ =>
      match litRest "celsius".data cs with
      | some r => some ("celsius".data, r)
      | none => none

/-- `(\d+)\.\s*(\d+)\s*(gradi|°c?|celsius)` at one position (the unit group
is matched but unused by the source). -/
def tempSpacedAt (sep : Char) (cs : List Char) : Option (List Char × Option (List Char)) :=
  repPlus Char.isDigit cs (fun g1 r1 =>
    match r1 with
    | c :: r2 =>
      if c == sep then
        repPlus Char.isDigit (skipWs r2) (fun g2 r3 =>
          match tempUnitAlt (skipWs r3) with
          | some _ => some (g1, some g2)
          | none => none)
      else none
    | [] => none)

/-- `(\d+(?:[.,]\d+)?)\s*(gradi|°c?|celsius)` at one position. -/
def tempPlainAt (cs : List Char) : Option (List Char × Option (List Char)) :=
  match numCommaAt cs with
  | some (g1, r1) =>
    match tempUnitAlt (skipWs r1) with
    | some (g2, _) => some (g1, some g2)
    | none => none
  | none => none

/-- `(\d+(?:[.,]\d+)?)` alone at one position. -/
def tempBareAt (cs : List Char) : Option (List Char × Option (List Char)) :=
  match numCommaAt cs with
  | some (g1, _) => some (g1, none)
  | none => none

/-- The `\s*([a-zA-Z]+)?` tail of a blood-pressure pattern: optional unit
group. -/
def optLetters (cs : List Char) : Option (List Char) :=
  let r := skipWs cs
  let g := r.takeWhile asciiAlpha
  if g = [] then none else some g

/-- `(\d+)\s*/\s*(\d+)\s*([a-zA-Z]+)?`-shaped pattern at one position, with
the separator recognizer passed in (`/`, the literal `su`, or `-`). -/
def bpUnitsAt (sep : List Char → Option (List Char)) (cs : List Char) :
    Option (List Char × List Char × Option (List Char)) :=
  repPlus Char.isDigit cs (fun g1 r1 =>
    match sep (skipWs r1) with
    | some r2 =>
      repPlus Char.isDigit (skipWs r2) (fun g2 r3 =>
        some (g1, g2, optLetters r3))
    | none => none)

/-- `(\d+(?:[.,]\d+)?)\s*([a-zA-Z/%°]+)` at one position. -/
def genUnitAt (cs : List Char) : Option (List Char × Option (List Char)) :=
  match numCommaAt cs with
  | some (g1, r1) =>
    let r2 := skipWs r1
    let g2 := r2.takeWhile (fun c => asciiAlpha c || c == '/' || c == '%' || c == '°')
    if g2 = [] then none else some (g1, some g2)
  | none => none

/-- `(\d+(?:[.,]\d+)?)\s*([%°])` at one position. -/
def genSymbolAt (cs : List Char) : Option (List Char × Option (List Char)) :=
  match numCommaAt cs with
  | some (g1, r1) =>
    match skipWs r1 with
    | c :: _ => if c == '%' || c == '°' then some (g1, some [c]) else none
    | [] => none
  | none => none

/-- `(\d+(?:[.,]\d+)?)\s+([a-zA-Z]+)` at one position. -/
def genSpacedAt (cs : List Char) : Option (List Char × Option (List Char)) :=
  match numCommaAt cs with
  | some (g1, r1) =>
    match wsPlus r1 with
    | some r2 =>
      let g2 := r2.takeWhile asciiAlpha
      if g2 = [] then none else some (g1, some g2)
    | none => none
  | none => none

/-- `(\d+(?:[.,]\d+)?)` alone at one position. -/
def genBareAt (cs : List Char) : Option (List Char × Option (List Char)) :=
  match numCommaAt cs with
  | some (g1, _) => some (g1, none)
  | none => none

/-- The unit synonym table of `_extract_with_units`. -/
def unitMapping : List (String × String) :=
  [("bpm", "bpm"), ("battiti", "bpm"), ("beat", "bpm"), ("beats", "bpm"),
   ("%", "%"), ("percento", "%"), ("percent", "%"),
   ("°c", "°C"), ("°", "°C"), ("gradi", "°C"), ("celsius", "°C"), ("c", "°C"),
   ("mmhg", "mmHg"), ("mm", "mmHg"), ("hg", "mmHg"),
   ("mg/dl", "mg/dl"), ("mgdl", "mg/dl"), ("mg", "mg/dl")]

/-- The temperature-pattern loop of `_extract_with_units` on one entity text
(searched on the lowercased cleaned text). -/
def extractTempSection (textClean : List Char) (defaultUnit : String) : Option String :=
  [tempSpacedAt '.', tempSpacedAt ',', tempPlainAt, tempBareAt].foldl
    (fun acc m =>
      match acc with
      | some r => some r
      | none =>
        match searchAll m (textClean.map pyLowerChar) with
        | some (g1, g2) =>
          let tempValue :=
            match g2 with
            | some g2v =>
              if pyIsDigit g2v then g1 ++ '.' :: g2v else g1.map commaToDot
            | none => g1.map commaToDot
          match parsePyFloat (chStr tempValue) with
          | some t =>
            if 30 ≤ t ∧ t ≤ 45 then some (chStr tempValue ++ " " ++ defaultUnit)
            else none
          | none => none
        | none => none) none

/-- The blood-pressure-pattern loop of `_extract_with_units` on one entity
text. -/
def extractBpSection (textClean : List Char) (defaultUnit : String) : Option String :=
  [bpUnitsAt (litRest ['/']), bpUnitsAt (litRest ['s', 'u']),
   bpUnitsAt (litRest ['-'])].foldl
    (fun acc m =>
      match acc with
      | some r => some r
      | none =>
        match searchAll m textClean with
        | some (systolic, diastolic, g3) =>
          let unit := match g3 with
            | some u => chStr u
            | none => defaultUnit
          let unit := if pyLower unit ∈ ["mmhg", "mm", "hg"] then "mmHg" else defaultUnit
          some (chStr systolic ++ "/" ++ chStr diastolic ++ " " ++ unit)
        | none => none) none

/-- The generic number-plus-unit loop of `_extract_with_units` on one entity
text. -/
def extractGenericSection (textClean : List Char) (defaultUnit : String) : Option String :=
  [genUnitAt, genSymbolAt, genSpacedAt, genBareAt].foldl
    (fun acc m =>
      match acc with
      | some r => some r
      | none =>
        match searchAll m textClean with
        | some (g1, g2) =>
          let value := chStr (g1.map commaToDot)
          let unit := match g2 with
            | some u => chStr u
            | none => defaultUnit
          let normalizedUnit :=
            ((unitMapping.find? (fun p => p.1 == pyLower unit)).map (·.2)).getD unit
          some (value ++ " " ++ normalizedUnit)
        | none => none) none

/-- `NERService._extract_with_units` on one entity text (the loop body):
temperature patterns only when the default unit is `°C`, blood-pressure
patterns only when it is `mmHg`, then the generic patterns. -/
def extractWithUnitsOne (text : String) (defaultUnit : String) : Option String :=
  let textClean := (pyStrip text).data
  let tempRes :=
    if pyLower defaultUnit == "°c" then extractTempSection textClean defaultUnit
    else none
  match tempRes with
  | some r => some r
  | none =>
    let bpRes :=
      if pyLower defaultUnit == "mmhg" then extractBpSection textClean defaultUnit
      else none
    match bpRes with
    | some r => some r
    | none => extractGenericSection textClean defaultUnit

/-- `NERService._extract_with_units`: first entity text that yields a value
wins; otherwise all texts are joined with a comma. -/
def extractWithUnits (entityTexts : List String) (defaultUnit : String) : String :=
  let rec loop : List String → Option String
    | [] => none
    | t :: ts =>
      match extractWithUnitsOne t defaultUnit with
      | some r => some r
      | none => loop ts
  match loop entityTexts with
  | some r => r
  | none => String.intercalate ", " entityTexts

/-! ### `NERService._map_ner_to_clinical_fields_aggregated` -/

/-- Group entities by `entity_group` in first-seen order, collecting their
stripped texts in order (the `defaultdict(list)` of the source). -/
def groupByLabel (es : List NerEntity) : List (String × List String) :=
  es.foldl (fun acc e =>
    let entityText := pyStrip e.word
    let label := e.entityGroup
    if acc.any (fun p => p.1 == label) then
      acc.map (fun p => if p.1 == label then (p.1, p.2 ++ [entityText]) else p)
    else acc ++ [(label, [entityText])]) []

/-- In-group deduplication preserving first-seen order. -/
def uniqueKeepOrder (ts : List String) : List String :=
  ts.foldl (fun acc t => if t ∈ acc then acc else acc ++ [t]) []

/-- The canonical clinical field keys, in source (insertion) order. -/
def canonicalKeys : List String :=
  ["first_name", "last_name", "access_mode", "birth_date", "birth_place",
   "age", "gender", "residence_city", "residence_address", "phone",
   "skin_state", "consciousness_state", "pupils_state", "respiratory_state",
   "history", "medications_taken", "symptoms", "heart_rate", "oxygenation",
   "blood_pressure", "temperature", "blood_glucose", "medical_actions",
   "assessment", "plan", "triage_code"]

/-- The initial clinical record: every canonical key bound to `""`. -/
def clinicalDataInit : List (String × String) :=
  canonicalKeys.map (fun k => (k, ""))

/-- The triage-code table of the `CODICE_USCITA` branch (identity on the
five Italian code words; `.get(.., '')` default). -/
def triageMapping : List (String × String) :=
  [("rosso", "rosso"), ("giallo", "giallo"), ("verde", "verde"),
   ("bianco", "bianco"), ("nero", "nero")]

/-- The `CODICE_USCITA` lookup: `triage_mapping.get(unique_texts[0].lower(), '')`. -/
def triageLookup (t : String) : String :=
  ((triageMapping.find? (fun p => p.1 == pyLower t)).map (·.2)).getD ""

/-- Append with a comma when the field is already populated (the
`pupils_state`/`medical_actions` accumulation of the source). -/
def appendJoined (cd : List (String × String)) (k : String) (ts : List String) :
    List (String × String) :=
  if (dGet cd k).getD "" ≠ "" then
    dSet cd k ((dGet cd k).getD "" ++ ", " ++ String.intercalate ", " ts)
  else dSet cd k (String.intercalate ", " ts)

/-- One branch of the label dispatch of
`_map_ner_to_clinical_fields_aggregated`, after the in-group deduplication
(`unique_texts` in the source). -/
def applyLabelGroupU (cd : List (String × String)) (label : String)
    (uniqueTexts : List String) : List (String × String) :=
  if label == "NOME_COGNOME" then
    match uniqueTexts with
    | [] => cd
    | t :: _ =>
      match pySplitWs t with
      | p :: q :: rest =>
        dSet (dSet cd "first_name" p) "last_name" (String.intercalate " " (q :: rest))
      | _ => dSet cd "first_name" t
  else if label == "SESSO" then
    match uniqueTexts with
    | [] => cd
    | t :: _ => dSet cd "gender" (normalizeGender t)
  else if label == "DATA_NASCITA" then
    match uniqueTexts with
    | [] => cd
    | t :: _ => dSet cd "birth_date" (normalizeDate t)
  else if label == "LUOGO_NASCITA" then
    dSet cd "birth_place" (String.intercalate ", " uniqueTexts)
  else if label == "COMUNE_RESIDENZA" then
    dSet cd "residence_city" (String.intercalate ", " uniqueTexts)
  else if label == "VIA_RESIDENZA" then
    dSet cd "residence_address" (String.intercalate ", " uniqueTexts)
  else if label == "TELEFONO" || label == "NUMERO_TELEFONO" then
    dSet cd "phone" (String.intercalate ", " uniqueTexts)
  else if label == "FC_BPM" then
    match uniqueTexts with
    | [] => cd
    | _ => dSet cd "heart_rate" (extractWithUnits uniqueTexts "bpm")
  else if label == "SpO2" then
    match uniqueTexts with
    | [] => cd
    | _ => dSet cd "oxygenation" (extractWithUnits uniqueTexts "%")
  else if label == "PA_MMHG" then
    match uniqueTexts with
    | [] => cd
    | _ => dSet cd "blood_pressure" (extractWithUnits uniqueTexts "mmHg")
  else if label == "TEMPERATURA" then
    match uniqueTexts with
    | [] => cd
    | _ => dSet cd "temperature" (extractWithUnits uniqueTexts "°C")
  else if label == "GLICEMIA" then
    match uniqueTexts with
    | [] => cd
    | _ => dSet cd "blood_glucose" (extractWithUnits uniqueTexts "mg/dl")
  else if label == "CUTE" then
    dSet cd "skin_state" (String.intercalate ", " uniqueTexts)
  else if label == "COSCIENZA" then
    dSet cd "consciousness_state" (String.intercalate ", " uniqueTexts)
  else if label == "PUPILLE_TIPO_DX" || label == "PUPILLE_TIPO_SX" ||
      label == "PUPILLE_REATTIVITA" then
    appendJoined cd "pupils_state" uniqueTexts
  else if label == "RESPIRO" then
    dSet cd "respiratory_state" (String.intercalate ", " uniqueTexts)
  else if label == "MEDICINA" then
    dSet cd "medications_taken" (String.intercalate ", " uniqueTexts)
  else if label == "CONDIZIONE_RIFERITA" then
    dSet cd "symptoms" (String.intercalate ", " uniqueTexts)
  else if label == "PROVVEDIMENTI_ALTRO" || label == "PROVVEDIMENTI_CIRCOLO" ||
      label == "PROVVEDIMENTI_IMMOBILIZZAZIONE" || label == "PROVVEDIMENTI_RESPIRO" then
    appendJoined cd "medical_actions" uniqueTexts
  else if label == "CODICE_USCITA" then
    match uniqueTexts with
    | [] => cd
    | t :: _ => dSet cd "triage_code" (triageLookup t)
  else if label == "ETA" || label == "AGE" || label == "ANNI" then
    dSet cd "age" (String.intercalate ", " uniqueTexts)
  else if label == "ANAMNESI" || label == "STORIA_CLINICA" || label == "HISTORY" then
    dSet cd "history" (String.intercalate ", " uniqueTexts)
  else if label == "VALUTAZIONE" || label == "ASSESSMENT" || label == "DIAGNOSI" then
    dSet cd "assessment" (String.intercalate ", " uniqueTexts)
  else if label == "PIANO" || label == "PLAN" || label == "TERAPIA" ||
      label == "TRATTAMENTO" then
    dSet cd "plan" (String.intercalate ", " uniqueTexts)
  else if label == "MODALITA_ACCESSO" || label == "ACCESS_MODE" || label == "ARRIVO" then
    dSet cd "access_mode" (String.intercalate ", " uniqueTexts)
  else cd

/-- One branch of the label dispatch of
`_map_ner_to_clinical_fields_aggregated` (deduplicate, then dispatch). -/
def applyLabelGroup (cd : List (String × String)) (label : String)
    (entityTexts : List String) : List (String × String) :=
  applyLabelGroupU cd label (uniqueKeepOrder entityTexts)

/-- `NERService._map_ner_to_clinical_fields_aggregated` (the transcript is
only logging context in the source). -/
def mapNerToClinicalFieldsAggregated (nerResults : List NerEntity)
    (_transcriptText : String) : List (String × String) :=
  (groupByLabel nerResults).foldl (fun cd p => applyLabelGroup cd p.1 p.2)
    clinicalDataInit

/-! ### `NERService._normalize_fields_with_units` -/

/-- The null markers scrubbed by both normalizers (the NER variant also
treats `""` as null, which is a no-op). -/
def nullValues : List String :=
  ["unknown", "na", "n/a", "null", "none", "sconosciuto", ""]

/-- The null markers of the NVIDIA normalizer (no `""` entry). -/
def nullValuesNim : List String :=
  ["unknown", "na", "n/a", "null", "none", "sconosciuto"]

/-- The vital-sign fields with their default units. -/
def vitalSignsWithUnits : List (String × String) :=
  [("heart_rate", "bpm"), ("oxygenation", "%"), ("temperature", "°C"),
   ("blood_glucose", "mg/dl")]

/-- The unit tokens whose presence keeps a vital-sign value verbatim. -/
def unitTokens : List String := ["bpm", "%", "°c", "°", "mg/dl", "mmhg"]

/-- The Checkup allow-list. -/
def fieldsToKeep : List String :=
  ["first_name", "last_name", "medications_taken", "heart_rate",
   "oxygenation", "blood_pressure", "temperature", "blood_glucose",
   "medical_actions", "assessment", "plan", "symptoms"]

/-- `\d+[/\-]\d+` at one position (presence test of the blood-pressure
format in `_normalize_fields_with_units`). -/
def bpSlashDashAt (cs : List Char) : Option Unit :=
  repPlus Char.isDigit cs (fun _ r1 =>
    match r1 with
    | c :: r2 =>
      if c == '/' || c == '-' then
        repPlus Char.isDigit r2 (fun _ _ => some ())
      else none
    | [] => none)

/-- One pass of the vital-sign loop of
`NERService._normalize_fields_with_units`: reads the *original* `data`
value of the field (as the source does) and writes into the accumulated
copy. -/
def vitalUnitStep (data : List (String × String)) (acc : List (String × String))
    (fu : String × String) : List (String × String) :=
  match dGet data fu.1 with
  | some v0 =>
    if v0 ≠ "" then
      if pyStrip v0 ≠ "" then
        if unitTokens.any (fun u => strContains (pyLower (pyStrip v0)) u) then
          dSet acc fu.1 (pyStrip v0)
        else
          match searchAll numCommaAt (pyStrip v0).data with
          | some (number, _) => dSet acc fu.1 (chStr number ++ " " ++ fu.2)
          | none => dSet acc fu.1 (pyStrip v0)
      else acc
    else acc
  | none => acc

/-- The blood-pressure pass of `NERService._normalize_fields_with_units`. -/
def bpUnitStep (data : List (String × String)) (acc : List (String × String)) :
    List (String × String) :=
  match dGet data "blood_pressure" with
  | some v0 =>
    if v0 ≠ "" then
      if pyStrip v0 ≠ "" then
        if ¬strContains (pyLower (pyStrip v0)) "mmhg" then
          if (searchAll bpSlashDashAt (pyStrip v0).data).isSome then
            dSet acc "blood_pressure" (pyStrip v0 ++ " mmHg")
          else dSet acc "blood_pressure" (pyStrip v0)
        else dSet acc "blood_pressure" (pyStrip v0)
      else acc
    else acc
  | none => acc

/-- `NERService._normalize_fields_with_units`: scrub null markers, run the
vital-sign and blood-pressure passes, and in Checkup mode keep only the
allow-listed keys (the dict comprehension of the source drops the rest). -/
def normalizeFieldsWithUnits (data : List (String × String))
    (usageMode : String) : List (String × String) :=
  let scrubbed := data.map (fun p =>
    if pyLower (pyStrip p.2) ∈ nullValues then (p.1, "") else p)
  let withBp := bpUnitStep data (vitalSignsWithUnits.foldl (vitalUnitStep data) scrubbed)
  if usageMode == "Checkup" then
    withBp.filter (fun p => p.1 ∈ fieldsToKeep)
  else withBp

/-! ### `NERService._validate_fields`, `_fallback_response`,
`extract_clinical_entities` -/

/-- `NERService._validate_fields` (the transcript is unused by this
variant; `list(set(..))` is embedded as first-occurrence deduplication). -/
def nerValidateFields (data : List (String × String)) (_originalText : String) :
    List String :=
  let e1 :=
    match dGet data "first_name" with
    | some v =>
      if v ≠ "" ∧ pyStrip v ≠ "" ∧ (pyStrip v).length < 2 then
        ["first_name: nome troppo corto"]
      else []
    | none => []
  let e2 :=
    match dGet data "last_name" with
    | some v =>
      if v ≠ "" ∧ pyStrip v ≠ "" ∧ (pyStrip v).length < 2 then
        ["last_name: cognome troppo corto"]
      else []
    | none => []
  let e3 :=
    match dGet data "temperature" with
    | some v =>
      if v ≠ "" ∧ pyStrip v ≠ "" then
        match parsePyFloat (chStr (beforeSub "°C".data v.data)) with
        | some t =>
          if t < 30 ∨ 45 < t then
            ["temperature: valore fuori range normale (30-45°C)"]
          else []
        | none => ["temperature: formato non valido"]
      else []
    | none => []
  dedupFirst (e1 ++ e2 ++ e3)

/-- The NER model identifier. -/
def nerModelPath : String := "pacovalentino/Text2NER"

/-- An extraction result payload: every key any code path may set, with
`none`/`[]` standing for an absent key. -/
structure ExtractionResult where
  extracted_data : List (String × String) := []
  validation_errors : List String := []
  extraction_method : String := ""
  model : Option String := none
  entities_found : Option Nat := none
  raw_ner_results : List NerEntity := []
  sentences_processed : Option Nat := none
  warnings : List String := []
  llm_model : Option String := none
  fallback : Option Bool := none
  raw_response : Option String := none
  timestamp : Option String := none
  text_length : Option Nat := none
  success : Option Bool := none
  error : Option String := none
deriving Repr, DecidableEq

/-- `NERService._fallback_response`. -/
def nerFallbackResponse (warning : Option String) : ExtractionResult :=
  { extracted_data := [], validation_errors := [],
    extraction_method := "ner-fallback", model := some nerModelPath,
    entities_found := some 0, raw_ner_results := [],
    warnings := match warning with | some w => [w] | none => [] }

/-- Does a sentence end with `.`, `!` or `?` (Python `endswith` tuple)? -/
def endsSentence (s : String) : Bool :=
  match s.data.getLast? with
  | some c => c == '.' || c == '!' || c == '?'
  | none => false

/-- `NERService.extract_clinical_entities`, with the token-classification
pipeline as an oracle (it is an external model; the source runs it once per
sentence and concatenates the spans). -/
def nerServiceExtract (available : Bool) (pipeline : String → List NerEntity)
    (transcriptText : String) (usageMode : String) : ExtractionResult :=
  if ¬available then nerFallbackResponse (some "Modello NER non caricato")
  else
    let sentences := splitTextIntoSentences transcriptText
    let allNerResults := sentences.foldl (fun acc sentence =>
      if pyStrip sentence ≠ "" then
        acc ++ pipeline (if endsSentence sentence then sentence else sentence ++ ".")
      else acc) []
    let extractedData := mapNerToClinicalFieldsAggregated allNerResults transcriptText
    let normalizedData := normalizeFieldsWithUnits extractedData usageMode
    let validationErrors := nerValidateFields normalizedData transcriptText
    { extracted_data := normalizedData, validation_errors := validationErrors,
      extraction_method := "ner", model := some nerModelPath,
      entities_found := some allNerResults.length,
      raw_ner_results := allNerResults,
      sentences_processed := some sentences.length }

/-! ### `nvidia_nim.py` -/

/-- `NVIDIANIMService._parse_json_response`, step 1: advance to the first
`{` (Python `response_text.find('{')`); `none` when there is none. -/
def dropToOpen : List Char → Option (List Char)
  | [] => none
  | c :: cs => if c == '\x7b' then some (c :: cs) else dropToOpen cs

/-- `_parse_json_response`, step 2: the brace-depth scan.  Called on a list
starting at the first `{`; every `{`/`}` counts (the source does not skip
string literals), and the slice ends at the `}` that returns the depth to
zero.  `none` when the block never closes. -/
def sliceBraces (depth : Nat) (acc : List Char) : List Char → Option (List Char)
  | [] => none
  | c :: rest =>
    if c == '\x7b' then sliceBraces (depth + 1) (acc ++ [c]) rest
    else if c == '\x7d' then
      if depth = 1 then some (acc ++ [c])
      else sliceBraces (depth - 1) (acc ++ [c]) rest
    else sliceBraces depth (acc ++ [c]) rest

/-- `NVIDIANIMService._parse_json_response`, with the stdlib `json.loads`
as an oracle (`none` models `json.JSONDecodeError`, which the source
catches and converts to `None`). -/
def parseJsonResponse (jsonLoads : String → Option α) (responseText : String) :
    Option α :=
  match dropToOpen responseText.data with
  | none => none
  | some tail =>
    match sliceBraces 0 [] tail with
    | none => none
    | some jsonStr => jsonLoads (chStr jsonStr)

/-- `\d{2,3}` capture at one position, nothing after. -/
def num23At (cs : List Char) : Option (List Char) :=
  repGreedy Char.isDigit 2 3 cs (fun g _ => some g)

/-- `\d{1,3}` capture at one position, nothing after. -/
def num13At (cs : List Char) : Option (List Char) :=
  repGreedy Char.isDigit 1 3 cs (fun g _ => some g)

/-- `\d+` capture at one position, nothing after (`re.search(r"\d+", ..)`). -/
def digitRunAt (cs : List Char) : Option (List Char) :=
  repPlus Char.isDigit cs (fun g _ => some g)

/-- `(\d{2,3})\s*(bpm|battiti)` at one position. -/
def nimHrUnitAt (cs : List Char) : Option (List Char) :=
  repGreedy Char.isDigit 2 3 cs (fun g1 r1 =>
    let r2 := skipWs r1
    match litRest "bpm".data r2 with
    | some _ => some g1
    | none =>
      match litRest "battiti".data r2 with
      | some _ => some g1
      | none => none)

/-- `(\d{1,3})\s*(%|percento)` at one position. -/
def nimOxyUnitAt (cs : List Char) : Option (List Char) :=
  repGreedy Char.isDigit 1 3 cs (fun g1 r1 =>
    let r2 := skipWs r1
    match litRest ['%'] r2 with
    | some _ => some g1
    | none =>
      match litRest "percento".data r2 with
      | some _ => some g1
      | none => none)

/-- `\d+(?:\.\d+)?` capture at one position. -/
def numDotAt (cs : List Char) : Option (List Char × List Char) :=
  repPlus Char.isDigit cs (fun d1 r1 =>
    match r1 with
    | '.' :: r2 =>
      match repPlus Char.isDigit r2 (fun d2 r3 => some (d1 ++ '.' :: d2, r3)) with
      | some v => some v
      | none => some (d1, r1)
    | _ => some (d1, r1))

/-- `[-+]?\d+(?:\.\d+)?` capture at one position (the sign is part of the
captured group). -/
def signedNumDotAt (cs : List Char) : Option (List Char × List Char) :=
  match cs with
  | c :: r =>
    if c == '-' || c == '+' then
      (numDotAt r).map (fun p => (c :: p.1, p.2))
    else numDotAt cs
  | [] => none

/-- The `(°c?|gradi|celsius)` alternation of the NVIDIA temperature pattern
(`°c?` tried first, `c` greedy; the group itself is unused). -/
def nimTempUnitAlt : List Char → Option Unit
  | '°' :: _ => some ()
  | cs =>
    match litRest "gradi".data cs with
    | some _ => some ()
    | none =>
      match litRest "celsius".data cs with
      | some _ => some ()
      | none => none

/-- `([-+]?\d+(?:\.\d+)?)\s*(°c?|gradi|celsius)` at one position. -/
def nimTempUnitAt (cs : List Char) : Option (List Char) :=
  match signedNumDotAt cs with
  | some (g1, r1) =>
    match nimTempUnitAlt (skipWs r1) with
    | some _ => some g1
    | none => none
  | none => none

/-- `([-+]?\d+(?:\.\d+)?)` alone at one position. -/
def nimTempBareAt (cs : List Char) : Option (List Char) :=
  (signedNumDotAt cs).map (·.1)

/-- The `(mg/dl|mg|mmol/l)` alternation. -/
def nimGlucoseUnitAlt (cs : List Char) : Option Unit :=
  match litRest "mg/dl".data cs with
  | some _ => some ()
  | none =>
    match litRest "mg".data cs with
    | some _ => some ()
    | none =>
      match litRest "mmol/l".data cs with
      | some _ => some ()
      | none => none

/-- `(\d{2,3})\s*(mg/dl|mg|mmol/l)` at one position. -/
def nimGlucoseUnitAt (cs : List Char) : Option (List Char) :=
  repGreedy Char.isDigit 2 3 cs (fun g1 r1 =>
    match nimGlucoseUnitAlt (skipWs r1) with
    | some _ => some g1
    | none => none)

/-- A `(\d{2,3}) <sep> (\d{2,3})` blood-pressure pattern at one position,
with the separator recognizer passed in. -/
def bpNimAt (sep : List Char → Option (List Char)) (cs : List Char) :
    Option (List Char × List Char) :=
  repGreedy Char.isDigit 2 3 cs (fun g1 r1 =>
    match sep r1 with
    | some r2 => repGreedy Char.isDigit 2 3 r2 (fun g2 _ => some (g1, g2))
    | none => none)

/-- `\s*/\s*`. -/
def sepSlashWs (r : List Char) : Option (List Char) :=
  (litRest ['/'] (skipWs r)).map skipWs

/-- `/` with no spaces. -/
def sepSlash (r : List Char) : Option (List Char) := litRest ['/'] r

/-- `\s+su\s+`. -/
def sepSuWs (r : List Char) : Option (List Char) :=
  match wsPlus r with
  | some r1 =>
    match litRest "su".data r1 with
    | some r2 => wsPlus r2
    | none => none
  | none => none

/-- `\s*-\s*`. -/
def sepDashWs (r : List Char) : Option (List Char) :=
  (litRest ['-'] (skipWs r)).map skipWs

/-- Maximal `\w+` runs, with fuel for structural recursion. -/
def wordRunsF : Nat → List Char → List (List Char)
  | 0, _ => []
  | fuel + 1, cs =>
    match cs with
    | [] => []
    | c :: rest =>
      if wordChar c then
        (c :: rest.takeWhile wordChar) :: wordRunsF fuel (rest.dropWhile wordChar)
      else wordRunsF fuel rest

/-- Maximal `\w+` runs of a string. -/
def wordRuns (cs : List Char) : List (List Char) := wordRunsF cs.length cs

/-- `re.findall(r"\b(\d{2,3})\b", ..)`: the maximal word-character runs
that consist of exactly two or three digits (a digit run embedded in a
longer word run has no boundary on at least one side). -/
def findallNum23 (cs : List Char) : List (List Char) :=
  (wordRuns cs).filter (fun r => r.all Char.isDigit && (r.length = 2 || r.length = 3))

/-- The heart-rate pass of `NVIDIANIMService._normalize_fields`: keep the
value verbatim when it already names a unit, else append ` bpm` to the
first 2-3 digit run, else blank the field (the `for .. else` of the
source).  Reads the *original* `data` value, writes into `acc`. -/
def nimHrBlock (data acc : List (String × String)) : List (String × String) :=
  match dGet data "heart_rate" with
  | some v0 =>
    if v0 ≠ "" then
      if strContains (pyLower v0) "bpm" || strContains (pyLower v0) "battiti" then
        dSet acc "heart_rate" v0
      else
        match searchAll nimHrUnitAt (pyLower v0).data with
        | some g1 => dSet acc "heart_rate" (chStr g1 ++ " bpm")
        | none =>
          match searchAll num23At (pyLower v0).data with
          | some g1 => dSet acc "heart_rate" (chStr g1 ++ " bpm")
          | none => dSet acc "heart_rate" ""
    else acc
  | none => acc

/-- The oxygen-saturation pass of `NVIDIANIMService._normalize_fields`. -/
def nimOxyBlock (data acc : List (String × String)) : List (String × String) :=
  match dGet data "oxygenation" with
  | some v0 =>
    if v0 ≠ "" then
      if strContains v0 "%" || strContains (pyLower v0) "percento" then
        dSet acc "oxygenation" v0
      else
        match searchAll nimOxyUnitAt (pyLower v0).data with
        | some g1 => dSet acc "oxygenation" (chStr g1 ++ "%")
        | none =>
          match searchAll num13At (pyLower v0).data with
          | some g1 => dSet acc "oxygenation" (chStr g1 ++ "%")
          | none => dSet acc "oxygenation" ""
    else acc
  | none => acc

/-- The temperature pass of `NVIDIANIMService._normalize_fields` (commas
become dots first). -/
def nimTempBlock (data acc : List (String × String)) : List (String × String) :=
  match dGet data "temperature" with
  | some v0 =>
    if v0 ≠ "" then
      if strContains (chStr (v0.data.map commaToDot)) "°" ||
          strContains (pyLower (chStr (v0.data.map commaToDot))) "gradi" ||
          strContains (pyLower (chStr (v0.data.map commaToDot))) "celsius" then
        dSet acc "temperature" (chStr (v0.data.map commaToDot))
      else
        match searchAll nimTempUnitAt (pyLower (chStr (v0.data.map commaToDot))).data with
        | some g1 => dSet acc "temperature" (chStr g1 ++ "°C")
        | none =>
          match searchAll nimTempBareAt (pyLower (chStr (v0.data.map commaToDot))).data with
          | some g1 => dSet acc "temperature" (chStr g1 ++ "°C")
          | none => dSet acc "temperature" ""
    else acc
  | none => acc

/-- The blood-glucose pass of `NVIDIANIMService._normalize_fields`. -/
def nimGlucoseBlock (data acc : List (String × String)) : List (String × String) :=
  match dGet data "blood_glucose" with
  | some v0 =>
    if v0 ≠ "" then
      if strContains (pyLower v0) "mg" || strContains (pyLower v0) "mmol" then
        dSet acc "blood_glucose" v0
      else
        match searchAll nimGlucoseUnitAt (pyLower v0).data with
        | some g1 => dSet acc "blood_glucose" (chStr g1 ++ " mg/dl")
        | none =>
          match searchAll num23At (pyLower v0).data with
          | some g1 => dSet acc "blood_glucose" (chStr g1 ++ " mg/dl")
          | none => dSet acc "blood_glucose" ""
    else acc
  | none => acc

/-- The blood-pressure pass of `NVIDIANIMService._normalize_fields`: the
four separator patterns in order, then the `re.findall` two-number
fallback. -/
def nimBpBlock (data acc : List (String × String)) : List (String × String) :=
  match dGet data "blood_pressure" with
  | some v0 =>
    if v0 ≠ "" then
      if strContains (pyLower v0) "mmhg" then
        dSet acc "blood_pressure" v0
      else
        match [bpNimAt sepSlashWs, bpNimAt sepSlash, bpNimAt sepSuWs,
            bpNimAt sepDashWs].foldl (fun r m =>
              match r with
              | some r0 => some r0
              | none => searchAll m v0.data) none with
        | some (g1, g2) =>
          dSet acc "blood_pressure" (chStr g1 ++ "/" ++ chStr g2 ++ " mmHg")
        | none =>
          match findallNum23 v0.data with
          | [a, b] => dSet acc "blood_pressure" (chStr a ++ "/" ++ chStr b ++ " mmHg")
          | _ => dSet acc "blood_pressure" ""
    else acc
  | none => acc

/-- `NVIDIANIMService._normalize_fields`: scrub null markers, run the five
field passes, and in Checkup mode blank every field outside the allow-list
(keeping the keys, unlike the NER variant). -/
def nimNormalizeFields (data : List (String × String)) (usageMode : String) :
    List (String × String) :=
  let scrubbed := data.map (fun p =>
    if pyLower (pyStrip p.2) ∈ nullValuesNim then (p.1, "") else p)
  let n5 := nimBpBlock data (nimGlucoseBlock data (nimTempBlock data
    (nimOxyBlock data (nimHrBlock data scrubbed))))
  if usageMode == "Checkup" then
    n5.map (fun p => if p.1 ∈ fieldsToKeep then p else (p.1, ""))
  else n5

/-- `NVIDIANIMService._validate_fields` (`0 <= age_value` is vacuous for a
natural number and kept implicit). -/
def nimValidateFields (data : List (String × String)) (originalText : String) :
    List String :=
  let originalTextLower := pyLower originalText
  let e1 :=
    match dGet data "first_name" with
    | some v =>
      if v ≠ "" ∧ pyStrip v ≠ "" then
        let nameValue := pyStrip v
        if nameValue.length < 2 ∨ ¬strContains originalTextLower (pyLower nameValue) then
          ["first_name"]
        else []
      else []
    | none => []
  let e2 :=
    match dGet data "last_name" with
    | some v =>
      if v ≠ "" ∧ pyStrip v ≠ "" then
        let surnameValue := pyStrip v
        if surnameValue.length < 2 ∨ ¬strContains originalTextLower (pyLower surnameValue) then
          ["last_name"]
        else []
      else []
    | none => []
  let e3 :=
    match dGet data "age" with
    | some v =>
      if v ≠ "" ∧ pyStrip v ≠ "" then
        let ageStr := pyStrip v
        match searchAll digitRunAt ageStr.data with
        | some digits =>
          let ageValue := digitsToNat digits
          if ¬(ageValue ≤ 130) ∨ ¬strContains originalText (natStr ageValue) then
            ["age"]
          else []
        | none => ["age"]
      else []
    | none => []
  let e4 :=
    match dGet data "temperature" with
    | some v =>
      if v ≠ "" ∧ pyStrip v ≠ "" then
        match parsePyFloat (chStr (beforeSub "°C".data v.data)) with
        | some t =>
          if ¬(0 ≤ t ∧ t ≤ 50) ∨ ¬strContains originalText (intStr (truncQ t)) then
            ["temperature"]
          else []
        | none => ["temperature"]
      else []
    | none => []
  dedupFirst (e1 ++ e2 ++ e3 ++ e4)

/-- `NVIDIANIMService._fallback_response`. -/
def nimFallbackResponse (warning : Option String) : ExtractionResult :=
  { extracted_data := [], validation_errors := [],
    llm_model := some "nvidia-fallback", fallback := some true,
    raw_response := some "",
    warnings := match warning with | some w => [w] | none => [] }

/-! ### `clinical_extraction.py` (the facade) -/

/-- `ClinicalExtractionService._error_response`. -/
def errorResponse (errorMessage : String) (now : String) : ExtractionResult :=
  { extracted_data := [], validation_errors := [errorMessage],
    extraction_method := "error", timestamp := some now,
    success := some false, error := some errorMessage }

/-- `ClinicalExtractionService.extract_clinical_entities`.  The two backend
services are injected (they are process-wide singletons in the source); the
wall clock is the `now` parameter.  Backends are total functions here, so
the blanket `except` branches of the source are unreachable. -/
def facadeExtract (llmExtract nerExtract : String → String → ExtractionResult)
    (defaultMethod : String) (transcriptText : String) (method : Option String)
    (usageMode : String) (now : String) : ExtractionResult :=
  let m := method.getD defaultMethod
  if m ∉ ["llm", "ner"] then
    errorResponse ("Unsupported method: " ++ m) now
  else
    let result :=
      if m == "llm" then llmExtract transcriptText usageMode
      else nerExtract transcriptText usageMode
    { result with
      extraction_method := m,
      timestamp := some now,
      text_length := some transcriptText.length }

/-- The comparison payload of
`ClinicalExtractionService._compare_extracted_fields`. -/
structure FieldComparison where
  matching_fields : List String
  different_fields : List (String × String × String)
  llm_only_fields : List String
  ner_only_fields : List String
  similarity_score : ℚ
deriving Repr, DecidableEq

/-- `field in d` for the embedded dict. -/
def keyMem (d : List (String × String)) (k : String) : Bool :=
  d.any (fun p => p.1 == k)

/-- `field in llm_data and field in ner_data`. -/
def cmpBoth (llmData nerData : List (String × String)) (field : String) : Bool :=
  keyMem llmData field && keyMem nerData field

/-- `str(llm_data.get(field, "")).strip() == str(ner_data.get(field, "")).strip()`. -/
def cmpEq (llmData nerData : List (String × String)) (field : String) : Bool :=
  pyStrip ((dGet llmData field).getD "") == pyStrip ((dGet nerData field).getD "")

/-- The `different_fields` entry for one field. -/
def cmpWitness (llmData nerData : List (String × String)) (field : String) :
    String × String × String :=
  (field, pyStrip ((dGet llmData field).getD ""), pyStrip ((dGet nerData field).getD ""))

/-- The loop body of `_compare_extracted_fields`: route one field into
exactly one of the four buckets. -/
def compareStep (llmData nerData : List (String × String))
    (acc : List String × List (String × String × String) × List String × List String)
    (field : String) :
    List String × List (String × String × String) × List String × List String :=
  let (ms, ds, ls, ns) := acc
  if cmpBoth llmData nerData field then
    if cmpEq llmData nerData field then (ms ++ [field], ds, ls, ns)
    else (ms, ds ++ [cmpWitness llmData nerData field], ls, ns)
  else if keyMem llmData field then (ms, ds, ls ++ [field], ns)
  else (ms, ds, ls, ns ++ [field])

/-- `ClinicalExtractionService._compare_extracted_fields` (the set union is
iterated in first-insertion order, see the module comment). -/
def compareExtractedFields (llmData nerData : List (String × String)) :
    FieldComparison :=
  let allFields := dedupFirst (dKeys llmData ++ dKeys nerData)
  let buckets := allFields.foldl (compareStep llmData nerData) ([], [], [], [])
  { matching_fields := buckets.1, different_fields := buckets.2.1,
    llm_only_fields := buckets.2.2.1, ner_only_fields := buckets.2.2.2,
    similarity_score :=
      if 0 < allFields.length then
        (buckets.1.length : ℚ) / (allFields.length : ℚ) * 100
      else 0 }

/-! ## Helper lemmas -/

theorem dKeys_map_snd (d : List (String × String)) (f : String × String → String) :
    dKeys (d.map (fun p => (p.1, f p))) = dKeys d := by
  simp [dKeys, List.map_map, Function.comp]

theorem any_key_of_mem {d : List (String × String)} {k : String}
    (h : k ∈ dKeys d) : d.any (fun p => p.1 == k) = true := by
  simp only [dKeys, List.mem_map] at h
  obtain ⟨p, hp, hk⟩ := h
  exact List.any_eq_true.2 ⟨p, hp, by simp [hk]⟩

theorem dKeys_dSet_of_mem {d : List (String × String)} {k : String} (v : String)
    (h : k ∈ dKeys d) : dKeys (dSet d k v) = dKeys d := by
  unfold dSet
  rw [if_pos (any_key_of_mem h)]
  simp only [dKeys, List.map_map]
  refine List.map_congr_left (fun p _ => ?_)
  simp only [Function.comp]
  split <;> rfl

theorem dGet_dSet_self {d : List (String × String)} {k : String} (v : String)
    (h : k ∈ dKeys d) : dGet (dSet d k v) k = some v := by
  unfold dSet
  rw [if_pos (any_key_of_mem h)]
  unfold dGet
  induction d with
  | nil => simp [dKeys] at h
  | cons p ps ih =>
    by_cases hp : (p.1 == k) = true
    · simp [List.find?, hp]
    · have hmem : k ∈ dKeys ps := by
        simp only [dKeys, List.map_cons, List.mem_cons] at h
        rcases h with h | h
        · exact absurd (by simp [h]) hp
        · exact h
      simpa [List.find?, hp] using ih hmem

theorem dGet_dSet_ne {d : List (String × String)} {k k' : String} (v : String)
    (h : k ≠ k') : dGet (dSet d k v) k' = dGet d k' := by
  unfold dSet dGet
  by_cases hany : d.any (fun p => p.1 == k) = true
  · rw [if_pos hany, List.find?_map]
    have hpred : ((fun p : String × String => p.1 == k') ∘
        fun p => if p.1 == k then (p.1, v) else p) =
        fun p : String × String => p.1 == k' := by
      funext p
      by_cases hp : (p.1 == k) = true <;> simp [Function.comp, hp]
    rw [hpred]
    cases hfind : d.find? (fun p => p.1 == k') with
    | none => simp
    | some p₀ =>
      have hfound := List.find?_some hfind
      rw [beq_iff_eq] at hfound
      have hnep : p₀.1 ≠ k := fun hh => h (hh.symm.trans hfound)
      simp [beq_eq_false_iff_ne.2 hnep, hnep]
  · rw [if_neg hany, List.find?_append]
    have hnone : List.find? (fun p => p.1 == k') [(k, v)] = none := by
      simp [List.find?, beq_eq_false_iff_ne.2 h]
    simp [hnone]

theorem dKeys_dSet_canon {cd : List (String × String)} {k : String} (v : String)
    (h : dKeys cd = canonicalKeys) (hk : k ∈ canonicalKeys) :
    dKeys (dSet cd k v) = canonicalKeys := by
  rw [dKeys_dSet_of_mem v (h ▸ hk), h]

theorem dKeys_appendJoined {cd : List (String × String)} {k : String}
    (ts : List String) (h : dKeys cd = canonicalKeys) (hk : k ∈ canonicalKeys) :
    dKeys (appendJoined cd k ts) = canonicalKeys := by
  unfold appendJoined
  split_ifs <;> exact dKeys_dSet_canon _ h hk

set_option linter.unnecessarySeqFocus false in
theorem dKeys_applyLabelGroupU (cd : List (String × String)) (label : String)
    (uniqueTexts : List String) (h : dKeys cd = canonicalKeys) :
    dKeys (applyLabelGroupU cd label uniqueTexts) = canonicalKeys := by
  unfold applyLabelGroupU
  cases hc0 : (label == "NOME_COGNOME") with
  | true =>
    rw [if_pos rfl]
    cases uniqueTexts with
    | nil => exact h
    | cons t tl =>
      dsimp only
      cases hsp : pySplitWs t with
      | nil =>
        refine dKeys_dSet_canon _ h ?_ <;> decide
      | cons pp tl2 =>
        cases tl2 with
        | nil =>
          refine dKeys_dSet_canon _ h ?_ <;> decide
        | cons q rest =>
          refine dKeys_dSet_canon _ (dKeys_dSet_canon _ h ?_) ?_ <;> decide
  | false =>
    rw [if_neg Bool.false_ne_true]
    cases hc1 : (label == "SESSO") with
    | true =>
      rw [if_pos rfl]
      cases uniqueTexts with
      | nil => exact h
      | cons t tl =>
        dsimp only
        refine dKeys_dSet_canon _ h ?_ <;> decide
    | false =>
      rw [if_neg Bool.false_ne_true]
      cases hc2 : (label == "DATA_NASCITA") with
      | true =>
        rw [if_pos rfl]
        cases uniqueTexts with
        | nil => exact h
        | cons t tl =>
          dsimp only
          refine dKeys_dSet_canon _ h ?_ <;> decide
      | false =>
        rw [if_neg Bool.false_ne_true]
        cases hc3 : (label == "LUOGO_NASCITA") with
        | true =>
          rw [if_pos rfl]
          refine dKeys_dSet_canon _ h ?_ <;> decide
        | false =>
          rw [if_neg Bool.false_ne_true]
          cases hc4 : (label == "COMUNE_RESIDENZA") with
          | true =>
            rw [if_pos rfl]
            refine dKeys_dSet_canon _ h ?_ <;> decide
          | false =>
            rw [if_neg Bool.false_ne_true]
            cases hc5 : (label == "VIA_RESIDENZA") with
            | true =>
              rw [if_pos rfl]
              refine dKeys_dSet_canon _ h ?_ <;> decide
            | false =>
              rw [if_neg Bool.false_ne_true]
              cases hc6 : (label == "TELEFONO" || label == "NUMERO_TELEFONO") with
              | true =>
                rw [if_pos rfl]
                refine dKeys_dSet_canon _ h ?_ <;> decide
              | false =>
                rw [if_neg Bool.false_ne_true]
                cases hc7 : (label == "FC_BPM") with
                | true =>
                  rw [if_pos rfl]
                  cases uniqueTexts with
                  | nil => exact h
                  | cons t tl =>
                    dsimp only
                    refine dKeys_dSet_canon _ h ?_ <;> decide
                | false =>
                  rw [if_neg Bool.false_ne_true]
                  cases hc8 : (label == "SpO2") with
                  | true =>
                    rw [if_pos rfl]
                    cases uniqueTexts with
                    | nil => exact h
                    | cons t tl =>
                      dsimp only
                      refine dKeys_dSet_canon _ h ?_ <;> decide
                  | false =>
                    rw [if_neg Bool.false_ne_true]
                    cases hc9 : (label == "PA_MMHG") with
                    | true =>
                      rw [if_pos rfl]
                      cases uniqueTexts with
                      | nil => exact h
                      | cons t tl =>
                        dsimp only
                        refine dKeys_dSet_canon _ h ?_ <;> decide
                    | false =>
                      rw [if_neg Bool.false_ne_true]
                      cases hc10 : (label == "TEMPERATURA") with
                      | true =>
                        rw [if_pos rfl]
                        cases uniqueTexts with
                        | nil => exact h
                        | cons t tl =>
                          dsimp only
                          refine dKeys_dSet_canon _ h ?_ <;> decide
                      | false =>
                        rw [if_neg Bool.false_ne_true]
                        cases hc11 : (label == "GLICEMIA") with
                        | true =>
                          rw [if_pos rfl]
                          cases uniqueTexts with
                          | nil => exact h
                          | cons t tl =>
                            dsimp only
                            refine dKeys_dSet_canon _ h ?_ <;> decide
                        | false =>
                          rw [if_neg Bool.false_ne_true]
                          cases hc12 : (label == "CUTE") with
                          | true =>
                            rw [if_pos rfl]
                            refine dKeys_dSet_canon _ h ?_ <;> decide
                          | false =>
                            rw [if_neg Bool.false_ne_true]
                            cases hc13 : (label == "COSCIENZA") with
                            | true =>
                              rw [if_pos rfl]
                              refine dKeys_dSet_canon _ h ?_ <;> decide
                            | false =>
                              rw [if_neg Bool.false_ne_true]
                              cases hc14 : (label == "PUPILLE_TIPO_DX" || label == "PUPILLE_TIPO_SX" || label == "PUPILLE_REATTIVITA") with
                              | true =>
                                rw [if_pos rfl]
                                refine dKeys_appendJoined _ h ?_ <;> decide
                              | false =>
                                rw [if_neg Bool.false_ne_true]
                                cases hc15 : (label == "RESPIRO") with
                                | true =>
                                  rw [if_pos rfl]
                                  refine dKeys_dSet_canon _ h ?_ <;> decide
                                | false =>
                                  rw [if_neg Bool.false_ne_true]
                                  cases hc16 : (label == "MEDICINA") with
                                  | true =>
                                    rw [if_pos rfl]
                                    refine dKeys_dSet_canon _ h ?_ <;> decide
                                  | false =>
                                    rw [if_neg Bool.false_ne_true]
                                    cases hc17 : (label == "CONDIZIONE_RIFERITA") with
                                    | true =>
                                      rw [if_pos rfl]
                                      refine dKeys_dSet_canon _ h ?_ <;> decide
                                    | false =>
                                      rw [if_neg Bool.false_ne_true]
                                      cases hc18 : (label == "PROVVEDIMENTI_ALTRO" || label == "PROVVEDIMENTI_CIRCOLO" || label == "PROVVEDIMENTI_IMMOBILIZZAZIONE" || label == "PROVVEDIMENTI_RESPIRO") with
                                      | true =>
                                        rw [if_pos rfl]
                                        refine dKeys_appendJoined _ h ?_ <;> decide
                                      | false =>
                                        rw [if_neg Bool.false_ne_true]
                                        cases hc19 : (label == "CODICE_USCITA") with
                                        | true =>
                                          rw [if_pos rfl]
                                          cases uniqueTexts with
                                          | nil => exact h
                                          | cons t tl =>
                                            dsimp only
                                            refine dKeys_dSet_canon _ h ?_ <;> decide
                                        | false =>
                                          rw [if_neg Bool.false_ne_true]
                                          cases hc20 : (label == "ETA" || label == "AGE" || label == "ANNI") with
                                          | true =>
                                            rw [if_pos rfl]
                                            refine dKeys_dSet_canon _ h ?_ <;> decide
                                          | false =>
                                            rw [if_neg Bool.false_ne_true]
                                            cases hc21 : (label == "ANAMNESI" || label == "STORIA_CLINICA" || label == "HISTORY") with
                                            | true =>
                                              rw [if_pos rfl]
                                              refine dKeys_dSet_canon _ h ?_ <;> decide
                                            | false =>
                                              rw [if_neg Bool.false_ne_true]
                                              cases hc22 : (label == "VALUTAZIONE" || label == "ASSESSMENT" || label == "DIAGNOSI") with
                                              | true =>
                                                rw [if_pos rfl]
                                                refine dKeys_dSet_canon _ h ?_ <;> decide
                                              | false =>
                                                rw [if_neg Bool.false_ne_true]
                                                cases hc23 : (label == "PIANO" || label == "PLAN" || label == "TERAPIA" || label == "TRATTAMENTO") with
                                                | true =>
                                                  rw [if_pos rfl]
                                                  refine dKeys_dSet_canon _ h ?_ <;> decide
                                                | false =>
                                                  rw [if_neg Bool.false_ne_true]
                                                  cases hc24 : (label == "MODALITA_ACCESSO" || label == "ACCESS_MODE" || label == "ARRIVO") with
                                                  | true =>
                                                    rw [if_pos rfl]
                                                    refine dKeys_dSet_canon _ h ?_ <;> decide
                                                  | false =>
                                                    rw [if_neg Bool.false_ne_true]
                                                    exact h

theorem dKeys_entrywise (d : List (String × String))
    (f : String × String → String × String) (hf : ∀ p, (f p).1 = p.1) :
    dKeys (d.map f) = dKeys d := by
  simp only [dKeys, List.map_map]
  exact List.map_congr_left fun p _ => hf p

theorem dKeys_clinicalDataInit : dKeys clinicalDataInit = canonicalKeys := by
  simp only [clinicalDataInit, dKeys, List.map_map]
  have hid : ((fun x : String × String => x.1) ∘ fun k : String => (k, "")) = id := rfl
  rw [hid, List.map_id]

theorem dKeys_mapAgg (es : List NerEntity) (text : String) :
    dKeys (mapNerToClinicalFieldsAggregated es text) = canonicalKeys := by
  unfold mapNerToClinicalFieldsAggregated
  have hfold : ∀ (gs : List (String × List String)) (cd : List (String × String)),
      dKeys cd = canonicalKeys →
      dKeys (gs.foldl (fun cd p => applyLabelGroup cd p.1 p.2) cd) = canonicalKeys := by
    intro gs
    induction gs with
    | nil => exact fun cd h => h
    | cons g gs ih =>
      intro cd h
      exact ih _ (dKeys_applyLabelGroupU _ _ _ h)
  exact hfold _ _ dKeys_clinicalDataInit

theorem dKeys_vitalUnitStep (data acc : List (String × String))
    (fu : String × String) (h : dKeys acc = canonicalKeys)
    (hk : fu.1 ∈ canonicalKeys) :
    dKeys (vitalUnitStep data acc fu) = canonicalKeys := by
  unfold vitalUnitStep
  split
  · split_ifs
    · exact dKeys_dSet_canon _ h hk
    · split <;> exact dKeys_dSet_canon _ h hk
    · exact h
    · exact h
  · exact h

theorem dKeys_bpUnitStep (data acc : List (String × String))
    (h : dKeys acc = canonicalKeys) :
    dKeys (bpUnitStep data acc) = canonicalKeys := by
  unfold bpUnitStep
  split
  · split_ifs <;>
      first
        | exact h
        | (refine dKeys_dSet_canon _ h ?_; decide)
  · exact h

theorem dKeys_normalizeFieldsWithUnits (data : List (String × String))
    (usageMode : String) (hmode : usageMode ≠ "Checkup")
    (h : dKeys data = canonicalKeys) :
    dKeys (normalizeFieldsWithUnits data usageMode) = canonicalKeys := by
  unfold normalizeFieldsWithUnits
  dsimp only
  rw [if_neg (by simpa using hmode)]
  refine dKeys_bpUnitStep _ _ ?_
  have hscrub : dKeys (data.map (fun p =>
      if pyLower (pyStrip p.2) ∈ nullValues then (p.1, "") else p)) = canonicalKeys := by
    rw [dKeys_entrywise _ _ (fun p => by split <;> rfl), h]
  have hsteps : ∀ (fus : List (String × String)) (acc : List (String × String)),
      dKeys acc = canonicalKeys → (∀ fu ∈ fus, fu.1 ∈ canonicalKeys) →
      dKeys (fus.foldl (vitalUnitStep data) acc) = canonicalKeys := by
    intro fus
    induction fus with
    | nil => exact fun acc hacc _ => hacc
    | cons fu fus ih =>
      intro acc hacc hmem
      exact ih _ (dKeys_vitalUnitStep _ _ _ hacc (hmem fu (by simp)))
        (fun x hx => hmem x (by simp [hx]))
  exact hsteps _ _ hscrub (by decide)

/-! ## Claim theorems -/

/-- C1 (amended): for a non-empty transcript, extraction through the facade
with `method="ner"`, the model loaded, and a usage mode other than
`"Checkup"` returns an `extracted_data` whose keys are exactly the 26
canonical field names, in order, whatever spans the model produced.  (As
stated the claim is false: in Checkup mode the NER normalizer *drops*
every key outside the 12-field allow-list, and a fallback response has
empty `extracted_data` — see `c1_cex`.) -/
theorem c1_ner_extracted_data_canonical_keys
    (llmExtract : String → String → ExtractionResult)
    (pipeline : String → List NerEntity) (text usageMode now : String)
    (_htext : text ≠ "") (hmode : usageMode ≠ "Checkup") :
    dKeys ((facadeExtract llmExtract (nerServiceExtract true pipeline) "llm"
      text (some "ner") usageMode now).extracted_data) = canonicalKeys := by
  unfold facadeExtract
  rw [if_neg (by decide)]
  dsimp only [Option.getD]
  unfold nerServiceExtract
  rw [if_neg (by simp)]
  dsimp only
  exact dKeys_normalizeFieldsWithUnits _ _ hmode (dKeys_mapAgg _ _)

/-- C1 witness: the theorem at a concrete transcript and usage mode. -/
theorem c1_witness :
    dKeys ((facadeExtract (fun _ _ => {}) (nerServiceExtract true (fun _ => []))
      "llm" "Paziente con febbre." (some "ner") "" "T0").extracted_data) =
      canonicalKeys :=
  c1_ner_extracted_data_canonical_keys _ _ _ _ _ (by decide) (by decide)

/-- C1 counterexample: with `usage_mode="Checkup"` the NER path drops the
canonical key `gender` (among others) from `extracted_data`, so the claim
"no key absent, for each method, including when usage_mode is Checkup" is
false on the code. -/
theorem c1_cex :
    dGet ((facadeExtract (fun _ _ => {}) (nerServiceExtract true (fun _ => []))
      "llm" "Paziente con febbre." (some "ner") "Checkup" "T0").extracted_data)
      "gender" = none ∧ "gender" ∈ canonicalKeys := by
  exact ⟨by decide, by decide⟩

/-- C2 (amended): with the NER model not loaded, the NER service itself
returns the fallback payload (`extraction_method="ner-fallback"`, empty
`extracted_data`, a non-empty `warnings`), and the facade call
`extract(text, method="ner")` passes the empty data and the warning
through but *overwrites* `extraction_method` with `"ner"` — the
`"ner-fallback"` tag never reaches the caller.  Nothing raises: every
function here is total. -/
theorem c2_ner_fallback (llmExtract : String → String → ExtractionResult)
    (pipeline : String → List NerEntity) (text usageMode now : String) :
    (nerServiceExtract false pipeline text usageMode).extraction_method =
      "ner-fallback" ∧
    (nerServiceExtract false pipeline text usageMode).extracted_data = [] ∧
    (nerServiceExtract false pipeline text usageMode).warnings =
      ["Modello NER non caricato"] ∧
    (facadeExtract llmExtract (nerServiceExtract false pipeline) "llm" text
      (some "ner") usageMode now).extraction_method = "ner" ∧
    (facadeExtract llmExtract (nerServiceExtract false pipeline) "llm" text
      (some "ner") usageMode now).extracted_data = [] ∧
    (facadeExtract llmExtract (nerServiceExtract false pipeline) "llm" text
      (some "ner") usageMode now).warnings = ["Modello NER non caricato"] :=
  ⟨rfl, rfl, rfl, rfl, rfl, rfl⟩

/-- C2 counterexample: at a concrete call the facade result carries
`extraction_method = "ner"`, not the `"ner-fallback"` the claim requires. -/
theorem c2_cex :
    (facadeExtract (fun _ _ => {}) (nerServiceExtract false (fun _ => []))
      "llm" "testo della visita" (some "ner") "" "T0").extraction_method = "ner" ∧
    ("ner" : String) ≠ "ner-fallback" :=
  ⟨by decide, by decide⟩

/-- C3 (amended): a raw triage span whose stripped, lowercased text is not
one of the five Italian code words maps to the *empty string* (the
`.get(.., '')` default of the source), not to `"white"`; the recognized
words map to themselves.  The `"white"` default of the spec lives in the
out-of-scope API layer, not in this normalization. -/
theorem c3_triage_unrecognized_empty (s : String) (text : String)
    (h : pyLower (pyStrip s) ∉ ["rosso", "giallo", "verde", "bianco", "nero"]) :
    triageLookup (pyStrip s) = "" ∧
    dGet (mapNerToClinicalFieldsAggregated [⟨s, "CODICE_USCITA"⟩] text)
      "triage_code" = some "" := by
  simp only [List.mem_cons, List.not_mem_nil, or_false, not_or] at h
  obtain ⟨h1, h2, h3, h4, h5⟩ := h
  have ht : triageLookup (pyStrip s) = "" := by
    unfold triageLookup triageMapping
    simp only [List.find?, beq_eq_false_iff_ne.2 (Ne.symm h1),
      beq_eq_false_iff_ne.2 (Ne.symm h2), beq_eq_false_iff_ne.2 (Ne.symm h3),
      beq_eq_false_iff_ne.2 (Ne.symm h4), beq_eq_false_iff_ne.2 (Ne.symm h5)]
    rfl
  refine ⟨ht, ?_⟩
  show dGet (dSet clinicalDataInit "triage_code" (triageLookup (pyStrip s)))
    "triage_code" = some ""
  rw [ht]
  exact dGet_dSet_self _ (by decide)

/-- C3 witness: the theorem at the concrete unrecognized word
`"arancione"`. -/
theorem c3_witness :
    triageLookup (pyStrip "arancione") = "" ∧
    dGet (mapNerToClinicalFieldsAggregated [⟨"arancione", "CODICE_USCITA"⟩] "x")
      "triage_code" = some "" :=
  c3_triage_unrecognized_empty "arancione" "x" (by decide)

/-- C3 counterexample: `"arancione"` normalizes to `""`, not to the
`"white"` the claim requires (and not to a non-empty value at all). -/
theorem c3_cex :
    dGet (mapNerToClinicalFieldsAggregated [⟨"arancione", "CODICE_USCITA"⟩] "x")
      "triage_code" = some "" ∧ ("" : String) ≠ "white" :=
  ⟨by decide, by decide⟩

/-- C5: evaluating the embedded `_normalize_date` at the claim's own
example shows the bug: `"23/02/1990"` matches the `dd/mm/yyyy` pattern,
but because the year is over 1900 the source swaps the first two groups as
if the format were `yyyy/mm/dd`, producing month `23`.  A genuine
`yyyy/mm/dd` input fares worse, and only the two-digit-year form is
correct. -/
theorem c5_normalize_date_bug :
    normalizeDate "23/02/1990" = "1990-23-02" ∧
    normalizeDate "1990/02/23" = "2023-02-1990" ∧
    normalizeDate "23/02/90" = "1990-02-23" :=
  ⟨by decide, by decide, by decide⟩

theorem dropToOpen_append_of_no_open {l1 : List Char}
    (h : ∀ c ∈ l1, (c == '\x7b') = false) (l2 : List Char) :
    dropToOpen (l1 ++ l2) = dropToOpen l2 := by
  induction l1 with
  | nil => rfl
  | cons c cs ih =>
    simp only [List.cons_append, dropToOpen, h c (by simp), if_false,
      Bool.false_eq_true]
    exact ih (fun x hx => h x (by simp [hx]))

theorem dropToOpen_none {l : List Char}
    (h : ∀ c ∈ l, (c == '\x7b') = false) : dropToOpen l = none := by
  induction l with
  | nil => rfl
  | cons c cs ih =>
    simp only [dropToOpen, h c (by simp), if_false, Bool.false_eq_true]
    exact ih (fun x hx => h x (by simp [hx]))

theorem sliceBraces_append {l : List Char} (post : List Char) :
    ∀ {d : Nat} {acc r : List Char}, sliceBraces d acc l = some r →
    sliceBraces d acc (l ++ post) = some r := by
  induction l with
  | nil => intro d acc r h; simp [sliceBraces] at h
  | cons c cs ih =>
    intro d acc r h
    rw [List.cons_append]
    unfold sliceBraces at h ⊢
    by_cases h1 : (c == '\x7b') = true
    · rw [if_pos h1] at h ⊢; exact ih h
    · rw [if_neg h1] at h ⊢
      by_cases h2 : (c == '\x7d') = true
      · rw [if_pos h2] at h ⊢
        by_cases h3 : d = 1
        · rw [if_pos h3] at h ⊢; exact h
        · rw [if_neg h3] at h ⊢; exact ih h
      · rw [if_neg h2] at h ⊢; exact ih h

/-- C8: the brace-depth JSON extraction of `_parse_json_response`.  (1) On a
response made of a brace-free preamble, a brace-balanced object (one the
scanner slices to itself), and arbitrary trailing text, exactly the object
is handed to `json.loads` and the trailing text is ignored; (2) with no
`\x7b` at all the result is `None`; (3) when the depth scan never returns
to zero the result is `None`, and a `json.loads` failure (`jsonLoads`
returning `none`) also yields `None` rather than an exception. -/
theorem c8_parse_json {α} (jsonLoads : String → Option α) :
    (∀ pre obj post : String,
      (∀ c ∈ pre.data, (c == '\x7b') = false) →
      obj.data.head? = some '\x7b' →
      sliceBraces 0 [] obj.data = some obj.data →
      parseJsonResponse jsonLoads (pre ++ obj ++ post) = jsonLoads obj) ∧
    (∀ s : String, (∀ c ∈ s.data, (c == '\x7b') = false) →
      parseJsonResponse jsonLoads s = none) ∧
    (∀ (s : String) (tl : List Char), dropToOpen s.data = some tl →
      sliceBraces 0 [] tl = none → parseJsonResponse jsonLoads s = none) := by
  refine ⟨?_, ?_, ?_⟩
  · intro pre obj post hpre hhead hbal
    obtain ⟨c, rest, hobj⟩ : ∃ c rest, obj.data = c :: rest := by
      cases hd : obj.data with
      | nil => rw [hd] at hhead; simp at hhead
      | cons c rest => exact ⟨c, rest, rfl⟩
    have hc : c = '\x7b' := by
      rw [hobj] at hhead; simpa using hhead
    have hopen : dropToOpen ('\x7b' :: (rest ++ post.data)) =
        some ('\x7b' :: (rest ++ post.data)) := by
      simp [dropToOpen]
    have hslice := sliceBraces_append post.data hbal
    rw [hobj, hc, List.cons_append] at hslice
    unfold parseJsonResponse
    rw [String.data_append, String.data_append, List.append_assoc,
      dropToOpen_append_of_no_open hpre, hobj, hc, List.cons_append, hopen]
    dsimp only
    rw [hslice]
    dsimp only
    have hmk : chStr obj.data = obj := by
      unfold chStr; cases obj; rfl
    rw [hobj, hc] at hmk
    rw [hmk]
  · intro s hs
    unfold parseJsonResponse
    rw [dropToOpen_none hs]
  · intro s tl hdrop hslice
    unfold parseJsonResponse
    rw [hdrop]
    dsimp only
    rw [hslice]

/-- C8 witness: the theorem at a concrete preamble, balanced object and
trailing commentary, with the identity oracle standing in for
`json.loads`. -/
theorem c8_witness :
    parseJsonResponse (fun s => some s)
      ("Ecco il JSON: " ++ "\x7b\"first_name\": \"Anna\"\x7d" ++ " fine.") =
      some "\x7b\"first_name\": \"Anna\"\x7d" :=
  (c8_parse_json (fun s => some s)).1 _ _ _ (by decide) (by decide) (by decide)

theorem dedupFirstAux_spec (l : List String) :
    ∀ seen, (dedupFirstAux seen l).Nodup ∧
      ∀ x ∈ dedupFirstAux seen l, x ∉ seen := by
  induction l with
  | nil => intro seen; simp [dedupFirstAux]
  | cons x xs ih =>
    intro seen
    by_cases hx : x ∈ seen
    · simpa [dedupFirstAux, hx] using ih seen
    · obtain ⟨ihn, ihs⟩ := ih (seen ++ [x])
      simp only [dedupFirstAux, hx, if_false]
      refine ⟨List.Nodup.cons (fun hmem => (ihs x hmem) (by simp)) ihn, ?_⟩
      intro y hy
      rcases List.mem_cons.1 hy with rfl | hy'
      · exact hx
      · exact fun hseen => (ihs y hy') (by simp [hseen])

theorem dedupFirst_nodup (l : List String) : (dedupFirst l).Nodup :=
  (dedupFirstAux_spec l []).1

theorem filter4_perm {α : Type} (q1 q2 q3 q4 : α → Bool) (l : List α)
    (h : ∀ a ∈ l, (q1 a).toNat + (q2 a).toNat + (q3 a).toNat + (q4 a).toNat = 1) :
    (l.filter q1 ++ l.filter q2 ++ l.filter q3 ++ l.filter q4).Perm l := by
  induction l with
  | nil => simp
  | cons a as ih =>
    have ha := h a (by simp)
    have ihp := ih (fun x hx => h x (by simp [hx]))
    have ihp' := (by simpa [List.append_assoc] using ihp :
      (as.filter q1 ++ (as.filter q2 ++ (as.filter q3 ++ as.filter q4))).Perm as)
    cases hq1 : q1 a <;> cases hq2 : q2 a <;> cases hq3 : q3 a <;> cases hq4 : q4 a <;>
        rw [hq1, hq2, hq3, hq4] at ha <;>
        simp only [Bool.toNat_true, Bool.toNat_false] at ha <;>
        simp only [List.filter_cons, hq1, hq2, hq3, hq4, if_true, if_false,
          Bool.false_eq_true, List.append_assoc, List.cons_append] <;>
        first
          | omega
          | skip
    · exact List.Perm.trans
        ((((List.perm_middle.append_left _).trans
          List.perm_middle).append_left _).trans List.perm_middle) (ihp'.cons a)
    · exact List.Perm.trans
        ((List.perm_middle.append_left _).trans List.perm_middle) (ihp'.cons a)
    · exact List.Perm.trans List.perm_middle (ihp'.cons a)
    · exact ihp'.cons a

theorem compareStep_eq (llmData nerData : List (String × String))
    (ms : List String) (ds : List (String × String × String)) (ls ns : List String)
    (f : String) :
    compareStep llmData nerData (ms, ds, ls, ns) f =
      (ms ++ (if cmpBoth llmData nerData f && cmpEq llmData nerData f then [f] else []),
       ds ++ (if cmpBoth llmData nerData f && !cmpEq llmData nerData f then
         [cmpWitness llmData nerData f] else []),
       ls ++ (if !cmpBoth llmData nerData f && keyMem llmData f then [f] else []),
       ns ++ (if !cmpBoth llmData nerData f && !keyMem llmData f then [f] else [])) := by
  unfold compareStep
  cases hb : cmpBoth llmData nerData f <;>
    cases he : cmpEq llmData nerData f <;>
    cases hk : keyMem llmData f <;>
    simp [hb, he, hk]

theorem compare_foldl_spec (llmData nerData : List (String × String))
    (l : List String) :
    ∀ ms ds ls ns,
      l.foldl (compareStep llmData nerData) (ms, ds, ls, ns) =
        (ms ++ l.filter (fun f => cmpBoth llmData nerData f && cmpEq llmData nerData f),
         ds ++ (l.filter (fun f =>
           cmpBoth llmData nerData f && !cmpEq llmData nerData f)).map
             (cmpWitness llmData nerData),
         ls ++ l.filter (fun f => !cmpBoth llmData nerData f && keyMem llmData f),
         ns ++ l.filter (fun f => !cmpBoth llmData nerData f && !keyMem llmData f)) := by
  induction l with
  | nil => simp
  | cons f fs ih =>
    intro ms ds ls ns
    rw [List.foldl_cons, compareStep_eq]
    rw [ih]
    cases hb : cmpBoth llmData nerData f <;>
      cases he : cmpEq llmData nerData f <;>
      cases hk : keyMem llmData f <;>
      simp [hb, he, hk, List.filter_cons, List.append_assoc]

/-- C9: the comparison-mode field diff never divides by zero: the
similarity score is `0` on an empty key union and
`matching / total * 100` otherwise, hence always within `[0, 100]`; the
key union is duplicate-free and every field in it lands in exactly one of
the four buckets (the concatenation of the buckets is a permutation of the
union). -/
theorem c9_compare_fields (llmData nerData : List (String × String)) :
    0 ≤ (compareExtractedFields llmData nerData).similarity_score ∧
    (compareExtractedFields llmData nerData).similarity_score ≤ 100 ∧
    (dedupFirst (dKeys llmData ++ dKeys nerData) = [] →
      (compareExtractedFields llmData nerData).similarity_score = 0) ∧
    (dedupFirst (dKeys llmData ++ dKeys nerData) ≠ [] →
      (compareExtractedFields llmData nerData).similarity_score =
        ((compareExtractedFields llmData nerData).matching_fields.length : ℚ) /
          ((dedupFirst (dKeys llmData ++ dKeys nerData)).length : ℚ) * 100) ∧
    (dedupFirst (dKeys llmData ++ dKeys nerData)).Nodup ∧
    ((compareExtractedFields llmData nerData).matching_fields ++
        (compareExtractedFields llmData nerData).different_fields.map (·.1) ++
        (compareExtractedFields llmData nerData).llm_only_fields ++
        (compareExtractedFields llmData nerData).ner_only_fields).Perm
      (dedupFirst (dKeys llmData ++ dKeys nerData)) := by
  have hspec := compare_foldl_spec llmData nerData
    (dedupFirst (dKeys llmData ++ dKeys nerData)) [] [] [] []
  simp only [List.nil_append] at hspec
  have hc : compareExtractedFields llmData nerData =
      { matching_fields := (dedupFirst (dKeys llmData ++ dKeys nerData)).filter
          (fun f => cmpBoth llmData nerData f && cmpEq llmData nerData f),
        different_fields := ((dedupFirst (dKeys llmData ++ dKeys nerData)).filter
          (fun f => cmpBoth llmData nerData f && !cmpEq llmData nerData f)).map
            (cmpWitness llmData nerData),
        llm_only_fields := (dedupFirst (dKeys llmData ++ dKeys nerData)).filter
          (fun f => !cmpBoth llmData nerData f && keyMem llmData f),
        ner_only_fields := (dedupFirst (dKeys llmData ++ dKeys nerData)).filter
          (fun f => !cmpBoth llmData nerData f && !keyMem llmData f),
        similarity_score :=
          if 0 < (dedupFirst (dKeys llmData ++ dKeys nerData)).length then
            (((dedupFirst (dKeys llmData ++ dKeys nerData)).filter
              (fun f => cmpBoth llmData nerData f && cmpEq llmData nerData f)).length : ℚ) /
              ((dedupFirst (dKeys llmData ++ dKeys nerData)).length : ℚ) * 100
          else 0 } := by
    unfold compareExtractedFields
    dsimp only
    rw [hspec]
  rw [hc]
  dsimp only
  have hm_le : (((dedupFirst (dKeys llmData ++ dKeys nerData)).filter
      (fun f => cmpBoth llmData nerData f && cmpEq llmData nerData f)).length) ≤
      (dedupFirst (dKeys llmData ++ dKeys nerData)).length :=
    List.length_filter_le _ _
  refine ⟨?_, ?_, ?_, ?_, dedupFirst_nodup _, ?_⟩
  · split_ifs with hpos
    · positivity
    · exact le_refl 0
  · split_ifs with hpos
    · have h1 : (((dedupFirst (dKeys llmData ++ dKeys nerData)).filter
          (fun f => cmpBoth llmData nerData f && cmpEq llmData nerData f)).length : ℚ) /
          ((dedupFirst (dKeys llmData ++ dKeys nerData)).length : ℚ) ≤ 1 := by
        rw [div_le_one (by exact_mod_cast hpos)]
        exact_mod_cast hm_le
      calc _ ≤ (1 : ℚ) * 100 := by
            exact mul_le_mul_of_nonneg_right h1 (by norm_num)
        _ = 100 := one_mul 100
    · norm_num
  · intro hempty
    rw [if_neg (by simp [hempty])]
  · intro hne
    rw [if_pos (List.length_pos.2 hne)]
  · have hmap : (((dedupFirst (dKeys llmData ++ dKeys nerData)).filter
        (fun f => cmpBoth llmData nerData f && !cmpEq llmData nerData f)).map
          (cmpWitness llmData nerData)).map (fun p => p.1) =
        (dedupFirst (dKeys llmData ++ dKeys nerData)).filter
          (fun f => cmpBoth llmData nerData f && !cmpEq llmData nerData f) := by
      rw [List.map_map]
      exact List.map_id _
    rw [hmap]
    refine filter4_perm _ _ _ _ _ ?_
    intro a _
    cases hb : cmpBoth llmData nerData a <;>
      cases he : cmpEq llmData nerData a <;>
      cases hk : keyMem llmData a <;> simp [hb, he, hk]

/-- C9 witness: the theorem at concrete field dicts (union `a, b, c`; one
matching field), with the non-empty-union implication discharged. -/
theorem c9_witness :
    (compareExtractedFields [("a", "1"), ("b", "2")]
      [("a", "1"), ("c", "3")]).similarity_score ≤ 100 ∧
    (compareExtractedFields [("a", "1"), ("b", "2")]
      [("a", "1"), ("c", "3")]).similarity_score =
      ((compareExtractedFields [("a", "1"), ("b", "2")]
        [("a", "1"), ("c", "3")]).matching_fields.length : ℚ) /
        ((dedupFirst (dKeys [("a", "1"), ("b", "2")] ++
          dKeys [("a", "1"), ("c", "3")])).length : ℚ) * 100 :=
  ⟨(c9_compare_fields _ _).2.1, (c9_compare_fields _ _).2.2.2.1 (by decide)⟩

theorem mem_dedupFirstAux (l : List String) :
    ∀ (seen : List String) (x : String),
      x ∈ dedupFirstAux seen l ↔ (x ∈ l ∧ x ∉ seen) := by
  induction l with
  | nil => intro seen x; simp [dedupFirstAux]
  | cons y ys ih =>
    intro seen x
    by_cases hy : y ∈ seen
    · rw [dedupFirstAux, if_pos hy, ih]
      constructor
      · rintro ⟨hx, hs⟩; exact ⟨by simp [hx], hs⟩
      · rintro ⟨hx, hs⟩
        rcases List.mem_cons.1 hx with rfl | hx'
        · exact absurd hy hs
        · exact ⟨hx', hs⟩
    · rw [dedupFirstAux, if_neg hy]
      constructor
      · intro hx
        rcases List.mem_cons.1 hx with rfl | hx'
        · exact ⟨by simp, hy⟩
        · obtain ⟨h1, h2⟩ := (ih _ _).1 hx'
          exact ⟨by simp [h1], fun hs => h2 (by simp [hs])⟩
      · rintro ⟨hx, hs⟩
        rcases List.mem_cons.1 hx with rfl | hx'
        · exact List.mem_cons_self _ _
        · by_cases hxy : x = y
          · subst hxy; exact List.mem_cons_self _ _
          · exact List.mem_cons_of_mem _ ((ih _ _).2
              ⟨hx', by simp [hs, hxy]⟩)

theorem mem_dedupFirst (l : List String) (x : String) :
    x ∈ dedupFirst l ↔ x ∈ l := by
  rw [dedupFirst, mem_dedupFirstAux]
  simp

/-- C6 (amended): both validators return de-duplicated lists and are total
(nothing raises).  The temperature rule differs between the backends and
from the claim: the NER validator flags a parsed temperature exactly when
it is outside [30,45] (message text `30-45°C`), and the LLM validator
flags exactly when it is outside [0,50] *or* its integer part does not
occur literally in the transcript; unparsable non-empty values are always
flagged. -/
theorem c6_validators (data : List (String × String)) (text : String)
    (v : String) (hv : dGet data "temperature" = some v) :
    (nerValidateFields data text).Nodup ∧
    (nimValidateFields data text).Nodup ∧
    ("temperature: valore fuori range normale (30-45°C)" ∈
        nerValidateFields data text ↔
      (v ≠ "" ∧ pyStrip v ≠ "" ∧
        ∃ q, parsePyFloat (chStr (beforeSub "°C".data v.data)) = some q ∧
          (q < 30 ∨ 45 < q))) ∧
    ("temperature" ∈ nimValidateFields data text ↔
      (v ≠ "" ∧ pyStrip v ≠ "" ∧
        (parsePyFloat (chStr (beforeSub "°C".data v.data)) = none ∨
         ∃ q, parsePyFloat (chStr (beforeSub "°C".data v.data)) = some q ∧
           (¬(0 ≤ q ∧ q ≤ 50) ∨
            strContains text (intStr (truncQ q)) = false)))) := by
  refine ⟨?_, ?_, ?_, ?_⟩
  · exact dedupFirst_nodup _
  · exact dedupFirst_nodup _
  · unfold nerValidateFields
    rw [mem_dedupFirst]
    simp only [List.mem_append]
    have h1 : ∀ x ∈ (match dGet data "first_name" with
        | some w => if w ≠ "" ∧ pyStrip w ≠ "" ∧ (pyStrip w).length < 2 then
            ["first_name: nome troppo corto"] else []
        | none => ([] : List String)), x = "first_name: nome troppo corto" := by
      rcases dGet data "first_name" with _ | w
      · simp
      · dsimp only
        split_ifs <;> simp
    have h2 : ∀ x ∈ (match dGet data "last_name" with
        | some w => if w ≠ "" ∧ pyStrip w ≠ "" ∧ (pyStrip w).length < 2 then
            ["last_name: cognome troppo corto"] else []
        | none => ([] : List String)), x = "last_name: cognome troppo corto" := by
      rcases dGet data "last_name" with _ | w
      · simp
      · dsimp only
        split_ifs <;> simp
    rw [hv]
    dsimp only
    constructor
    · rintro ((hm | hm) | hm)
      · exact absurd (h1 _ hm) (by decide)
      · exact absurd (h2 _ hm) (by decide)
      · revert hm
        split_ifs with hcond
        · rcases hp : parsePyFloat (chStr (beforeSub "°C".data v.data)) with _ | q
          · intro hm
            exact absurd (List.mem_singleton.1 hm) (by decide)
          · dsimp only
            split_ifs with hrange
            · intro _
              exact ⟨hcond.1, hcond.2, q, rfl, hrange⟩
            · intro hm; simp at hm
        · intro hm; simp at hm
    · rintro ⟨hne, hst, q, hq, hrange⟩
      refine Or.inr ?_
      rw [if_pos ⟨hne, hst⟩, hq]
      dsimp only
      rw [if_pos hrange]
      simp
  · unfold nimValidateFields
    rw [mem_dedupFirst]
    simp only [List.mem_append]
    have h1 : ∀ x ∈ (match dGet data "first_name" with
        | some w =>
          if w ≠ "" ∧ pyStrip w ≠ "" then
            if (pyStrip w).length < 2 ∨
                ¬strContains (pyLower text) (pyLower (pyStrip w)) then
              ["first_name"] else []
          else []
        | none => ([] : List String)), x = "first_name" := by
      rcases dGet data "first_name" with _ | w
      · simp
      · dsimp only
        split_ifs <;> simp
    have h2 : ∀ x ∈ (match dGet data "last_name" with
        | some w =>
          if w ≠ "" ∧ pyStrip w ≠ "" then
            if (pyStrip w).length < 2 ∨
                ¬strContains (pyLower text) (pyLower (pyStrip w)) then
              ["last_name"] else []
          else []
        | none => ([] : List String)), x = "last_name" := by
      rcases dGet data "last_name" with _ | w
      · simp
      · dsimp only
        split_ifs <;> simp
    have h3 : ∀ x ∈ (match dGet data "age" with
        | some w =>
          if w ≠ "" ∧ pyStrip w ≠ "" then
            match searchAll digitRunAt (pyStrip w).data with
            | some digits =>
              if ¬(digitsToNat digits ≤ 130) ∨
                  ¬strContains text (natStr (digitsToNat digits)) then
                ["age"] else []
            | none => ["age"]
          else []
        | none => ([] : List String)), x = "age" := by
      rcases dGet data "age" with _ | w
      · simp
      · dsimp only
        split_ifs
        · rcases searchAll digitRunAt (pyStrip w).data with _ | digits
          · simp
          · dsimp only; split_ifs <;> simp
        · simp
    rw [hv]
    dsimp only
    constructor
    · rintro (((hm | hm) | hm) | hm)
      · exact absurd (h1 _ hm) (by decide)
      · exact absurd (h2 _ hm) (by decide)
      · exact absurd (h3 _ hm) (by decide)
      · revert hm
        split_ifs with hcond
        · rcases hp : parsePyFloat (chStr (beforeSub "°C".data v.data)) with _ | q
          · intro _
            exact ⟨hcond.1, hcond.2, Or.inl rfl⟩
          · dsimp only
            split_ifs with hrange
            · intro _
              refine ⟨hcond.1, hcond.2, Or.inr ⟨q, rfl, ?_⟩⟩
              rcases hrange with h | h
              · exact Or.inl h
              · exact Or.inr (by simpa using h)
            · intro hm; simp at hm
        · intro hm; simp at hm
    · rintro ⟨hne, hst, hrest⟩
      refine Or.inr ?_
      rw [if_pos ⟨hne, hst⟩]
      rcases hrest with hnone | ⟨q, hq, hbad⟩
      · rw [hnone]; simp
      · rw [hq]
        dsimp only
        rw [if_pos ?_]
        · simp
        · rcases hbad with h | h
          · exact Or.inl h
          · exact Or.inr (by simpa using h)

/-- C6 witness: the theorem at concrete data, with the NER band violated
(a 20°C reading is flagged by the NER validator). -/
theorem c6_witness :
    "temperature: valore fuori range normale (30-45°C)" ∈
      nerValidateFields [("temperature", "20.0 °C")] "testo" :=
  (c6_validators [("temperature", "20.0 °C")] "testo" "20.0 °C"
    (by decide)).2.2.1.mpr ⟨by decide, by decide, 20, by decide, by decide⟩

/-- C6 counterexample: a parsed temperature of 20°C lies inside the
claimed [0,50] band yet the NER validator flags it (its band is [30,45]),
so "flags exactly when outside [0,50]" is false on the code. -/
theorem c6_cex :
    "temperature: valore fuori range normale (30-45°C)" ∈
      nerValidateFields [("temperature", "20.0 °C")] "testo" ∧
    parsePyFloat "20.0 " = some 20 ∧ 0 ≤ (20 : ℚ) ∧ (20 : ℚ) ≤ 50 := by
  exact ⟨by decide, by decide, by decide, by decide⟩

/-! ## Digit-string lemmas and scanner failure/success lemmas -/

/-- The ten decimal digit characters. -/
def decimalDigits : List Char :=
  ['0', '1', '2', '3', '4', '5', '6', '7', '8', '9']

theorem digitChar10_mem (m : Nat) : digitChar10 m ∈ decimalDigits := by
  unfold digitChar10
  split <;> decide

theorem decimalDigit_facts {c : Char} (h : c ∈ decimalDigits) :
    c.isDigit = true ∧ pySpace c = false ∧ pyLowerChar c = c := by
  simp only [decimalDigits, List.mem_cons, List.not_mem_nil, or_false] at h
  rcases h with rfl|rfl|rfl|rfl|rfl|rfl|rfl|rfl|rfl|rfl <;> exact ⟨rfl, rfl, rfl⟩

theorem chStr_data (cs : List Char) : (chStr cs).data = cs := rfl

theorem chStr_ne_nil {cs : List Char} (h : cs ≠ []) : chStr cs ≠ "" := by
  intro e
  exact h (congrArg String.data e)

theorem str_append_assoc (s t u : String) : s ++ t ++ u = s ++ (t ++ u) := by
  cases s with
  | mk a =>
    cases t with
    | mk b =>
      cases u with
      | mk c =>
        show String.mk (a ++ b ++ c) = String.mk (a ++ (b ++ c))
        exact congrArg String.mk (List.append_assoc a b c)

/-- A string whose first character is a decimal digit is not a null marker. -/
theorem digit_head_not_null {a : Char} (r : List Char) (ha : a ∈ decimalDigits) :
    chStr (a :: r) ∉ nullValues := by
  intro hm
  simp only [nullValues, List.mem_cons, List.not_mem_nil, or_false] at hm
  rcases hm with e|e|e|e|e|e|e <;>
    (have h2 := congrArg String.data e
     simp only [chStr_data] at h2) <;>
    first
      | (injection h2 with h1 h3
         rw [h1] at ha
         exact absurd ha (by decide))
      | exact absurd h2 (List.cons_ne_nil a r)

/-- A successful search succeeds at some suffix of the input. -/
theorem searchAll_some {β : Type} {m : List Char → Option β} :
    ∀ {cs : List Char} {v : β}, searchAll m cs = some v →
      ∃ r, r <:+ cs ∧ m r = some v := by
  intro cs
  induction cs with
  | nil => exact fun h => ⟨[], List.suffix_refl _, h⟩
  | cons c cs ih =>
    intro v h
    unfold searchAll at h
    cases hm : m (c :: cs) with
    | some w =>
      rw [hm] at h
      exact ⟨c :: cs, List.suffix_refl _, by rw [hm]; exact h⟩
    | none =>
      rw [hm] at h
      obtain ⟨r, hr, hmr⟩ := ih h
      exact ⟨r, hr.trans (List.suffix_cons c cs), hmr⟩

/-- If the position matcher fails at every suffix, the search fails. -/
theorem searchAll_none {β : Type} {m : List Char → Option β} {cs : List Char}
    (h : ∀ r, r <:+ cs → m r = none) : searchAll m cs = none := by
  cases hs : searchAll m cs with
  | none => rfl
  | some v =>
    obtain ⟨r, hr, hmr⟩ := searchAll_some hs
    rw [h r hr] at hmr
    exact absurd hmr (by simp)

/-- A match at the start of the input makes the search succeed there. -/
theorem searchAll_head {β : Type} {m : List Char → Option β} {cs : List Char}
    {v : β} (h : m cs = some v) : searchAll m cs = some v := by
  cases cs with
  | nil => exact h
  | cons c r => unfold searchAll; rw [h]

/-- A successful greedy repetition invokes its continuation on a suffix of
the input. -/
theorem repGreedy_some {β : Type} {p : Char → Bool} :
    ∀ {hi lo : Nat} {cs : List Char} {k : List Char → List Char → Option β}
      {v : β}, repGreedy p lo hi cs k = some v →
      ∃ g r, r <:+ cs ∧ k g r = some v := by
  intro hi
  induction hi with
  | zero =>
    intro lo cs k v h
    unfold repGreedy at h
    split at h
    · exact ⟨[], cs, List.suffix_refl _, h⟩
    · exact absurd h (by simp)
  | succ hi ih =>
    intro lo cs k v h
    cases cs with
    | nil =>
      unfold repGreedy at h
      split at h
      · exact ⟨[], [], List.suffix_refl _, h⟩
      · exact absurd h (by simp)
    | cons c rest =>
      unfold repGreedy at h
      split at h
      · cases hrec : repGreedy p (lo - 1) hi rest (fun g r => k (c :: g) r) with
        | some w =>
          rw [hrec] at h
          obtain ⟨g, r, hr, hk⟩ := ih hrec
          refine ⟨c :: g, r, hr.trans (List.suffix_cons c rest), ?_⟩
          rw [hk]
          exact h
        | none =>
          rw [hrec] at h
          dsimp only at h
          split at h
          · exact ⟨[], c :: rest, List.suffix_refl _, h⟩
          · exact absurd h (by simp)
      · split at h
        · exact ⟨[], c :: rest, List.suffix_refl _, h⟩
        · exact absurd h (by simp)

/-- A literal match requires the literal's first character at the front. -/
theorem litRest_mem {t : Char} {ts r x : List Char}
    (h : litRest (t :: ts) r = some x) : t ∈ r := by
  cases r with
  | nil => exact absurd h (by simp [litRest])
  | cons c cs =>
    unfold litRest at h
    split at h
    · next hc =>
      have : c = t := beq_iff_eq.mp hc
      subst this
      exact List.mem_cons_self c cs
    · exact absurd h (by simp)

/-- A substring hit implies the needle's first character occurs in the hay. -/
theorem containsSub_mem {t : Char} {ts : List Char} :
    ∀ {hay : List Char}, containsSub (t :: ts) hay = true → t ∈ hay := by
  intro hay
  induction hay with
  | nil => exact fun h => absurd h (by simp [containsSub, leadsWith])
  | cons c cs ih =>
    intro h
    unfold containsSub at h
    rcases Bool.or_eq_true_iff.mp h with h1 | h2
    · unfold leadsWith at h1
      have : c = t := beq_iff_eq.mp (Bool.and_eq_true_iff.mp h1).1
      subst this
      exact List.mem_cons_self c cs
    · exact List.mem_cons_of_mem c (ih h2)

/-- Absence of the needle's first character refutes the substring test. -/
theorem containsSub_false {t : Char} {ts hay : List Char} (h : t ∉ hay) :
    containsSub (t :: ts) hay = false := by
  cases hc : containsSub (t :: ts) hay with
  | false => rfl
  | true => exact absurd (containsSub_mem hc) h

theorem num23At_two {x y : Char} (hx : x.isDigit = true) (hy : y.isDigit = true) :
    num23At [x, y] = some [x, y] := by
  simp [num23At, repGreedy, hx, hy]

theorem num23At_three {x y z : Char} (hx : x.isDigit = true)
    (hy : y.isDigit = true) (hz : z.isDigit = true) :
    num23At [x, y, z] = some [x, y, z] := by
  simp [num23At, repGreedy, hx, hy, hz]

theorem numCommaAt_two {x y : Char} (hx : x.isDigit = true)
    (hy : y.isDigit = true) : numCommaAt [x, y] = some ([x, y], []) := by
  simp [numCommaAt, repPlus, repGreedy, hx, hy]

theorem numCommaAt_three {x y z : Char} (hx : x.isDigit = true)
    (hy : y.isDigit = true) (hz : z.isDigit = true) :
    numCommaAt [x, y, z] = some ([x, y, z], []) := by
  simp [numCommaAt, repPlus, repGreedy, hx, hy, hz]

/-- Without a `b` in the input, the heart-rate unit pattern never matches. -/
theorem nimHrUnitAt_search_none {cs : List Char} (hb : 'b' ∉ cs) :
    searchAll nimHrUnitAt cs = none := by
  apply searchAll_none
  intro r hr
  cases hm : nimHrUnitAt r with
  | none => rfl
  | some g =>
    exfalso
    unfold nimHrUnitAt at hm
    obtain ⟨g1, r1, hr1, hk⟩ := repGreedy_some hm
    dsimp only at hk
    have hbr : 'b' ∉ skipWs r1 := fun hx =>
      hb (hr.subset (hr1.subset ((List.dropWhile_suffix pySpace).subset hx)))
    cases h1 : litRest "bpm".data (skipWs r1) with
    | some w => exact hbr (litRest_mem h1)
    | none =>
      rw [h1] at hk
      cases h2 : litRest "battiti".data (skipWs r1) with
      | some w => exact hbr (litRest_mem h2)
      | none =>
        rw [h2] at hk
        exact absurd hk (by simp)

theorem natCharsF_small {fuel n : Nat} (hf : 0 < fuel) (h : n < 10) :
    natCharsF fuel n = [digitChar10 n] := by
  obtain ⟨f, rfl⟩ : ∃ f, fuel = f + 1 := ⟨fuel - 1, by omega⟩
  unfold natCharsF
  rw [if_pos h]

theorem natChars_two (n : Nat) (h1 : 10 ≤ n) (h2 : n < 100) :
    natChars n = [digitChar10 (n / 10), digitChar10 (n % 10)] := by
  unfold natChars natCharsF
  rw [if_neg (by omega)]
  rw [natCharsF_small (by omega) (by omega)]
  rfl

theorem natChars_three (n : Nat) (h1 : 100 ≤ n) (h2 : n < 1000) :
    natChars n = [digitChar10 (n / 100), digitChar10 (n / 10 % 10),
      digitChar10 (n % 10)] := by
  unfold natChars natCharsF
  rw [if_neg (by omega)]
  obtain ⟨f, hf⟩ : ∃ f, n = f + 1 := ⟨n - 1, by omega⟩
  rw [hf]
  unfold natCharsF
  rw [if_neg (by omega)]
  rw [natCharsF_small (by omega) (by omega)]
  rw [Nat.div_div_eq_div_mul]
  rw [← hf]
  rfl

/-- Both heart-rate normalizers on a plain 2-3 digit value: the digits are
kept and ` bpm` is appended, with no range check. -/
theorem hr_norm_core (cs : List Char) (hne : cs ≠ [])
    (hstrip : pyStripList cs = cs) (hlower : cs.map pyLowerChar = cs)
    (hnull : chStr cs ∉ nullValues)
    (hb : 'b' ∉ cs) (hpc : '%' ∉ cs) (hdg : '°' ∉ cs) (hmm : 'm' ∉ cs)
    (hnum23 : num23At cs = some cs) (hnumc : numCommaAt cs = some (cs, [])) :
    dGet (nimNormalizeFields [("heart_rate", chStr cs)] "") "heart_rate"
        = some (chStr cs ++ " bpm") ∧
    dGet (normalizeFieldsWithUnits [("heart_rate", chStr cs)] "") "heart_rate"
        = some (chStr cs ++ " bpm") := by
  have hSs : pyStrip (chStr cs) = chStr cs := by
    show String.mk (pyStripList cs) = chStr cs
    rw [hstrip]
    rfl
  have hLs : pyLower (chStr cs) = chStr cs := by
    show String.mk (cs.map pyLowerChar) = chStr cs
    rw [hlower]
    rfl
  have hsne : chStr cs ≠ "" := chStr_ne_nil hne
  have hnullNim : chStr cs ∉ nullValuesNim := by
    intro h
    apply hnull
    simp only [nullValuesNim, List.mem_cons, List.not_mem_nil, or_false] at h
    simp only [nullValues, List.mem_cons, List.not_mem_nil, or_false]
    tauto
  have hcbpm : strContains (chStr cs) "bpm" = false := containsSub_false hb
  have hcbat : strContains (chStr cs) "battiti" = false := containsSub_false hb
  have hcpct : strContains (chStr cs) "%" = false := containsSub_false hpc
  have hcdgc : strContains (chStr cs) "°c" = false := containsSub_false hdg
  have hcdg : strContains (chStr cs) "°" = false := containsSub_false hdg
  have hcmgdl : strContains (chStr cs) "mg/dl" = false := containsSub_false hmm
  have hcmmhg : strContains (chStr cs) "mmhg" = false := containsSub_false hmm
  constructor
  · -- NVIDIA NIM side
    unfold nimNormalizeFields
    dsimp only
    rw [if_neg (by decide)]
    simp only [List.map_cons, List.map_nil]
    rw [hSs, hLs, if_neg hnullNim]
    have hoxy : ∀ acc, nimOxyBlock [("heart_rate", chStr cs)] acc = acc :=
      fun acc => rfl
    have htmp : ∀ acc, nimTempBlock [("heart_rate", chStr cs)] acc = acc :=
      fun acc => rfl
    have hglu : ∀ acc, nimGlucoseBlock [("heart_rate", chStr cs)] acc = acc :=
      fun acc => rfl
    have hbp : ∀ acc, nimBpBlock [("heart_rate", chStr cs)] acc = acc :=
      fun acc => rfl
    rw [hoxy, htmp, hglu, hbp]
    unfold nimHrBlock
    rw [show dGet [("heart_rate", chStr cs)] "heart_rate" = some (chStr cs)
      from rfl]
    dsimp only
    rw [if_pos hsne, hLs, hcbpm, hcbat, if_neg (by decide)]
    rw [chStr_data, nimHrUnitAt_search_none hb, searchAll_head hnum23]
    rfl
  · -- NER side
    unfold normalizeFieldsWithUnits
    dsimp only
    rw [if_neg (by decide)]
    simp only [List.map_cons, List.map_nil]
    rw [hSs, hLs, if_neg hnull]
    simp only [vitalSignsWithUnits, List.foldl_cons, List.foldl_nil]
    have hv2 : ∀ acc, vitalUnitStep [("heart_rate", chStr cs)] acc
        ("oxygenation", "%") = acc := fun acc => rfl
    have hv3 : ∀ acc, vitalUnitStep [("heart_rate", chStr cs)] acc
        ("temperature", "°C") = acc := fun acc => rfl
    have hv4 : ∀ acc, vitalUnitStep [("heart_rate", chStr cs)] acc
        ("blood_glucose", "mg/dl") = acc := fun acc => rfl
    have hbp2 : ∀ acc, bpUnitStep [("heart_rate", chStr cs)] acc = acc :=
      fun acc => rfl
    rw [hv2, hv3, hv4, hbp2]
    unfold vitalUnitStep
    rw [show dGet [("heart_rate", chStr cs)] "heart_rate" = some (chStr cs)
      from rfl]
    dsimp only
    rw [if_pos hsne, hSs, if_pos hsne, hLs]
    simp only [unitTokens, List.any_cons, List.any_nil]
    simp only [hcbpm, hcpct, hcdgc, hcdg, hcmgdl, hcmmhg, Bool.or_false]
    rw [if_neg (by decide)]
    rw [chStr_data, searchAll_head hnumc]
    dsimp only
    rw [show chStr cs ++ " " ++ "bpm" = chStr cs ++ " bpm" from
      (str_append_assoc _ _ _)]
    rfl

theorem hr_digits_two {x y : Char} (hx : x ∈ decimalDigits)
    (hy : y ∈ decimalDigits) :
    dGet (nimNormalizeFields [("heart_rate", chStr [x, y])] "") "heart_rate"
        = some (chStr [x, y] ++ " bpm") ∧
    dGet (normalizeFieldsWithUnits [("heart_rate", chStr [x, y])] "")
        "heart_rate" = some (chStr [x, y] ++ " bpm") := by
  obtain ⟨hdx, hsx, hlx⟩ := decimalDigit_facts hx
  obtain ⟨hdy, hsy, hly⟩ := decimalDigit_facts hy
  apply hr_norm_core
  · simp
  · simp [pyStripList, List.dropWhile, hsx, hsy]
  · simp [hlx, hly]
  · exact digit_head_not_null _ hx
  · simp only [List.mem_cons, List.not_mem_nil, or_false]
    push_neg
    exact ⟨(ne_of_mem_of_not_mem hx (by decide)).symm,
      (ne_of_mem_of_not_mem hy (by decide)).symm⟩
  · simp only [List.mem_cons, List.not_mem_nil, or_false]
    push_neg
    exact ⟨(ne_of_mem_of_not_mem hx (by decide)).symm,
      (ne_of_mem_of_not_mem hy (by decide)).symm⟩
  · simp only [List.mem_cons, List.not_mem_nil, or_false]
    push_neg
    exact ⟨(ne_of_mem_of_not_mem hx (by decide)).symm,
      (ne_of_mem_of_not_mem hy (by decide)).symm⟩
  · simp only [List.mem_cons, List.not_mem_nil, or_false]
    push_neg
    exact ⟨(ne_of_mem_of_not_mem hx (by decide)).symm,
      (ne_of_mem_of_not_mem hy (by decide)).symm⟩
  · exact num23At_two hdx hdy
  · exact numCommaAt_two hdx hdy

theorem hr_digits_three {x y z : Char} (hx : x ∈ decimalDigits)
    (hy : y ∈ decimalDigits) (hz : z ∈ decimalDigits) :
    dGet (nimNormalizeFields [("heart_rate", chStr [x, y, z])] "") "heart_rate"
        = some (chStr [x, y, z] ++ " bpm") ∧
    dGet (normalizeFieldsWithUnits [("heart_rate", chStr [x, y, z])] "")
        "heart_rate" = some (chStr [x, y, z] ++ " bpm") := by
  obtain ⟨hdx, hsx, hlx⟩ := decimalDigit_facts hx
  obtain ⟨hdy, hsy, hly⟩ := decimalDigit_facts hy
  obtain ⟨hdz, hsz, hlz⟩ := decimalDigit_facts hz
  apply hr_norm_core
  · simp
  · simp [pyStripList, List.dropWhile, hsx, hsy, hsz]
  · simp [hlx, hly, hlz]
  · exact digit_head_not_null _ hx
  · simp only [List.mem_cons, List.not_mem_nil, or_false]
    push_neg
    exact ⟨(ne_of_mem_of_not_mem hx (by decide)).symm,
      (ne_of_mem_of_not_mem hy (by decide)).symm,
      (ne_of_mem_of_not_mem hz (by decide)).symm⟩
  · simp only [List.mem_cons, List.not_mem_nil, or_false]
    push_neg
    exact ⟨(ne_of_mem_of_not_mem hx (by decide)).symm,
      (ne_of_mem_of_not_mem hy (by decide)).symm,
      (ne_of_mem_of_not_mem hz (by decide)).symm⟩
  · simp only [List.mem_cons, List.not_mem_nil, or_false]
    push_neg
    exact ⟨(ne_of_mem_of_not_mem hx (by decide)).symm,
      (ne_of_mem_of_not_mem hy (by decide)).symm,
      (ne_of_mem_of_not_mem hz (by decide)).symm⟩
  · simp only [List.mem_cons, List.not_mem_nil, or_false]
    push_neg
    exact ⟨(ne_of_mem_of_not_mem hx (by decide)).symm,
      (ne_of_mem_of_not_mem hy (by decide)).symm,
      (ne_of_mem_of_not_mem hz (by decide)).symm⟩
  · exact num23At_three hdx hdy hdz
  · exact numCommaAt_three hdx hdy hdz

/-- C4 (amended): neither heart-rate normalizer applies the claimed
[30,250] range check.  For every natural number `n` with 10 ≤ n ≤ 999 —
including out-of-range readings such as 10 or 999 — both the NVIDIA NIM
normalizer and the NER normalizer map the raw value `str(n)` to
`str(n) ++ " bpm"`: the NIM pass keeps the first 2-3 digit run and the NER
pass keeps the first `\d+(?:[.,]\d+)?` match, with no range filtering, and
an out-of-range value is never replaced by the empty string (see `c4_cex`
for a partial value emitted from a 4-digit input). -/
theorem c4_heart_rate_no_range_check (n : Nat) (h1 : 10 ≤ n) (h2 : n ≤ 999) :
    dGet (nimNormalizeFields [("heart_rate", natStr n)] "") "heart_rate"
        = some (natStr n ++ " bpm") ∧
    dGet (normalizeFieldsWithUnits [("heart_rate", natStr n)] "") "heart_rate"
        = some (natStr n ++ " bpm") := by
  rcases lt_or_le n 100 with hlt | hge
  · have hform := natChars_two n h1 hlt
    rw [show natStr n = chStr (natChars n) from rfl, hform]
    exact hr_digits_two (digitChar10_mem _) (digitChar10_mem _)
  · have hform := natChars_three n hge (by omega)
    rw [show natStr n = chStr (natChars n) from rfl, hform]
    exact hr_digits_three (digitChar10_mem _) (digitChar10_mem _)
      (digitChar10_mem _)

/-- C4 witness: the theorem at the concrete in-range reading `120`. -/
theorem c4_witness :
    dGet (nimNormalizeFields [("heart_rate", natStr 120)] "") "heart_rate"
        = some (natStr 120 ++ " bpm") ∧
    dGet (normalizeFieldsWithUnits [("heart_rate", natStr 120)] "")
        "heart_rate" = some (natStr 120 ++ " bpm") :=
  c4_heart_rate_no_range_check 120 (by decide) (by decide)

/-- C4 counterexample: the out-of-range raw value `"1000"` is not mapped to
the empty string: the NIM normalizer emits the partial value `"100 bpm"`
(first three digits) and the NER normalizer emits `"1000 bpm"`, so
"out-of-range → empty string, never a partial value" is false on the code. -/
theorem c4_cex :
    dGet (nimNormalizeFields [("heart_rate", "1000")] "") "heart_rate"
        = some "100 bpm" ∧
    dGet (normalizeFieldsWithUnits [("heart_rate", "1000")] "") "heart_rate"
        = some "1000 bpm" := by
  exact ⟨by decide, by decide⟩

/-! ## Blood-pressure scanner lemmas -/

/-- A captured blood-pressure number: a two- or three-digit character list. -/
def BpNum (a : List Char) : Prop :=
  (∃ x y, a = [x, y] ∧ x ∈ decimalDigits ∧ y ∈ decimalDigits) ∨
  (∃ x y z, a = [x, y, z] ∧ x ∈ decimalDigits ∧ y ∈ decimalDigits ∧
    z ∈ decimalDigits)

theorem bpNum_natChars {n : Nat} (h1 : 10 ≤ n) (h2 : n ≤ 999) :
    BpNum (natChars n) := by
  rcases lt_or_le n 100 with hlt | hge
  · exact Or.inl ⟨_, _, natChars_two n h1 hlt, digitChar10_mem _,
      digitChar10_mem _⟩
  · exact Or.inr ⟨_, _, _, natChars_three n hge (by omega), digitChar10_mem _,
      digitChar10_mem _, digitChar10_mem _⟩

theorem bpNum_skipWs {b : List Char} (hb : BpNum b) : skipWs b = b := by
  rcases hb with ⟨x, y, rfl, hx, hy⟩ | ⟨x, y, z, rfl, hx, hy, hz⟩ <;>
    simp [skipWs, List.dropWhile, (decimalDigit_facts hx).2.1]

theorem bpNum_ne_nil {b : List Char} (hb : BpNum b) : b ≠ [] := by
  rcases hb with ⟨x, y, rfl, hx, hy⟩ | ⟨x, y, z, rfl, hx, hy, hz⟩ <;> simp

theorem bpNum_not_mem {b : List Char} {c : Char} (hb : BpNum b)
    (hc : c ∉ decimalDigits) : c ∉ b := by
  rcases hb with ⟨x, y, rfl, hx, hy⟩ | ⟨x, y, z, rfl, hx, hy, hz⟩
  · simp only [List.mem_cons, List.not_mem_nil, or_false]
    push_neg
    exact ⟨fun e => hc (e ▸ hx), fun e => hc (e ▸ hy)⟩
  · simp only [List.mem_cons, List.not_mem_nil, or_false]
    push_neg
    exact ⟨fun e => hc (e ▸ hx), fun e => hc (e ▸ hy), fun e => hc (e ▸ hz)⟩

theorem bpNum_head_digit {b : List Char} (hb : BpNum b) :
    ∃ x r, b = x :: r ∧ x ∈ decimalDigits := by
  rcases hb with ⟨x, y, rfl, hx, hy⟩ | ⟨x, y, z, rfl, hx, hy, hz⟩ <;>
    exact ⟨x, _, rfl, hx⟩

theorem repGreedy23_two_cons_some {β : Type} {x y c : Char} {r : List Char}
    {k : List Char → List Char → Option β} {v : β}
    (hx : x.isDigit = true) (hy : y.isDigit = true) (hc : c.isDigit = false)
    (hk : k [x, y] (c :: r) = some v) :
    repGreedy Char.isDigit 2 3 (x :: y :: c :: r) k = some v := by
  simp [repGreedy, hx, hy, hc, hk]

theorem repGreedy23_three_cons_some {β : Type} {x y z : Char} {r : List Char}
    {k : List Char → List Char → Option β} {v : β}
    (hx : x.isDigit = true) (hy : y.isDigit = true) (hz : z.isDigit = true)
    (hk : k [x, y, z] r = some v) :
    repGreedy Char.isDigit 2 3 (x :: y :: z :: r) k = some v := by
  simp [repGreedy, hx, hy, hz, hk]

theorem repGreedy23_two_nil_some {β : Type} {x y : Char}
    {k : List Char → List Char → Option β} {v : β}
    (hx : x.isDigit = true) (hy : y.isDigit = true)
    (hk : k [x, y] [] = some v) :
    repGreedy Char.isDigit 2 3 [x, y] k = some v := by
  simp [repGreedy, hx, hy, hk]

theorem repGreedy23_three_nil_some {β : Type} {x y z : Char}
    {k : List Char → List Char → Option β} {v : β}
    (hx : x.isDigit = true) (hy : y.isDigit = true) (hz : z.isDigit = true)
    (hk : k [x, y, z] [] = some v) :
    repGreedy Char.isDigit 2 3 [x, y, z] k = some v := by
  simp [repGreedy, hx, hy, hz, hk]

theorem repGreedy23_bpnum_cons_some {β : Type} {a : List Char} {c : Char}
    {t : List Char} {k : List Char → List Char → Option β} {v : β}
    (ha : BpNum a) (hc : c.isDigit = false) (hk : k a (c :: t) = some v) :
    repGreedy Char.isDigit 2 3 (a ++ c :: t) k = some v := by
  rcases ha with ⟨x, y, rfl, hx, hy⟩ | ⟨x, y, z, rfl, hx, hy, hz⟩
  · exact repGreedy23_two_cons_some (decimalDigit_facts hx).1
      (decimalDigit_facts hy).1 hc hk
  · exact repGreedy23_three_cons_some (decimalDigit_facts hx).1
      (decimalDigit_facts hy).1 (decimalDigit_facts hz).1 hk

theorem repGreedy23_bpnum_nil_some {β : Type} {b : List Char}
    {k : List Char → List Char → Option β} {v : β}
    (hb : BpNum b) (hk : k b [] = some v) :
    repGreedy Char.isDigit 2 3 b k = some v := by
  rcases hb with ⟨x, y, rfl, hx, hy⟩ | ⟨x, y, z, rfl, hx, hy, hz⟩
  · exact repGreedy23_two_nil_some (decimalDigit_facts hx).1
      (decimalDigit_facts hy).1 hk
  · exact repGreedy23_three_nil_some (decimalDigit_facts hx).1
      (decimalDigit_facts hy).1 (decimalDigit_facts hz).1 hk

theorem repPlus_two_cons_some {β : Type} {x y c : Char} {r : List Char}
    {k : List Char → List Char → Option β} {v : β}
    (hx : x.isDigit = true) (hy : y.isDigit = true) (hc : c.isDigit = false)
    (hk : k [x, y] (c :: r) = some v) :
    repPlus Char.isDigit (x :: y :: c :: r) k = some v := by
  simp [repPlus, repGreedy, hx, hy, hc, hk]

theorem repPlus_three_cons_some {β : Type} {x y z c : Char} {r : List Char}
    {k : List Char → List Char → Option β} {v : β}
    (hx : x.isDigit = true) (hy : y.isDigit = true) (hz : z.isDigit = true)
    (hc : c.isDigit = false) (hk : k [x, y, z] (c :: r) = some v) :
    repPlus Char.isDigit (x :: y :: z :: c :: r) k = some v := by
  simp [repPlus, repGreedy, hx, hy, hz, hc, hk]

theorem repPlus_two_nil_some {β : Type} {x y : Char}
    {k : List Char → List Char → Option β} {v : β}
    (hx : x.isDigit = true) (hy : y.isDigit = true)
    (hk : k [x, y] [] = some v) :
    repPlus Char.isDigit [x, y] k = some v := by
  simp [repPlus, repGreedy, hx, hy, hk]

theorem repPlus_three_nil_some {β : Type} {x y z : Char}
    {k : List Char → List Char → Option β} {v : β}
    (hx : x.isDigit = true) (hy : y.isDigit = true) (hz : z.isDigit = true)
    (hk : k [x, y, z] [] = some v) :
    repPlus Char.isDigit [x, y, z] k = some v := by
  simp [repPlus, repGreedy, hx, hy, hz, hk]

theorem repPlus_bpnum_cons_some {β : Type} {a : List Char} {c : Char}
    {t : List Char} {k : List Char → List Char → Option β} {v : β}
    (ha : BpNum a) (hc : c.isDigit = false) (hk : k a (c :: t) = some v) :
    repPlus Char.isDigit (a ++ c :: t) k = some v := by
  rcases ha with ⟨x, y, rfl, hx, hy⟩ | ⟨x, y, z, rfl, hx, hy, hz⟩
  · exact repPlus_two_cons_some (decimalDigit_facts hx).1
      (decimalDigit_facts hy).1 hc hk
  · exact repPlus_three_cons_some (decimalDigit_facts hx).1
      (decimalDigit_facts hy).1 (decimalDigit_facts hz).1 hc hk

theorem repPlus_bpnum_nil_some {β : Type} {b : List Char}
    {k : List Char → List Char → Option β} {v : β}
    (hb : BpNum b) (hk : k b [] = some v) :
    repPlus Char.isDigit b k = some v := by
  rcases hb with ⟨x, y, rfl, hx, hy⟩ | ⟨x, y, z, rfl, hx, hy, hz⟩
  · exact repPlus_two_nil_some (decimalDigit_facts hx).1
      (decimalDigit_facts hy).1 hk
  · exact repPlus_three_nil_some (decimalDigit_facts hx).1
      (decimalDigit_facts hy).1 (decimalDigit_facts hz).1 hk

theorem sepSlashWs_slash {b : List Char} (hb : skipWs b = b) :
    sepSlashWs ('/' :: b) = some b := by
  show some (skipWs b) = some b
  rw [hb]

theorem sepSlashWs_spaced {b : List Char} (hb : skipWs b = b) :
    sepSlashWs (' ' :: '/' :: ' ' :: b) = some b := by
  show some (skipWs b) = some b
  rw [hb]

theorem sepDashWs_dash {b : List Char} (hb : skipWs b = b) :
    sepDashWs ('-' :: b) = some b := by
  show some (skipWs b) = some b
  rw [hb]

theorem sepDashWs_spaced {b : List Char} (hb : skipWs b = b) :
    sepDashWs (' ' :: '-' :: ' ' :: b) = some b := by
  show some (skipWs b) = some b
  rw [hb]

theorem sepSuWs_spaced {b : List Char} (hb : skipWs b = b) :
    sepSuWs (' ' :: 's' :: 'u' :: ' ' :: b) = some b := by
  show some (skipWs b) = some b
  rw [hb]

theorem wsPlus_suffix {r r1 : List Char} (h : wsPlus r = some r1) : r1 <:+ r := by
  cases r with
  | nil => exact absurd h (by simp [wsPlus])
  | cons c rest =>
    rw [wsPlus] at h
    split at h
    · injection h with h2
      rw [← h2]
      exact (List.dropWhile_suffix pySpace).trans (List.suffix_cons c rest)
    · exact absurd h (by simp)

theorem sepSlashWs_none {r : List Char} (h : '/' ∉ r) : sepSlashWs r = none := by
  unfold sepSlashWs
  cases hl : litRest ['/'] (skipWs r) with
  | none => rfl
  | some r2 =>
    exact absurd ((List.dropWhile_suffix pySpace).subset (litRest_mem hl)) h

theorem sepSlash_none {r : List Char} (h : '/' ∉ r) : sepSlash r = none := by
  unfold sepSlash
  cases hl : litRest ['/'] r with
  | none => rfl
  | some r2 => exact absurd (litRest_mem hl) h

theorem litRest_none {c0 : Char} {ts r : List Char} (h : c0 ∉ r) :
    litRest (c0 :: ts) r = none := by
  cases hl : litRest (c0 :: ts) r with
  | none => rfl
  | some x => exact absurd (litRest_mem hl) h

theorem sepSuWs_none {r : List Char} (h : 's' ∉ r) : sepSuWs r = none := by
  unfold sepSuWs
  cases hw : wsPlus r with
  | none => rfl
  | some r1 =>
    dsimp only
    have hr1 := wsPlus_suffix hw
    rw [litRest_none (fun hx => h (hr1.subset hx))]

theorem sepDashWs_none {r : List Char} (h : '-' ∉ r) : sepDashWs r = none := by
  unfold sepDashWs
  cases hl : litRest ['-'] (skipWs r) with
  | none => rfl
  | some r2 =>
    exact absurd ((List.dropWhile_suffix pySpace).subset (litRest_mem hl)) h

/-- Generic failure of a NIM blood-pressure pattern search when the
separator's witness character is absent. -/
theorem bpNimAt_search_none {cs : List Char}
    {sep : List Char → Option (List Char)} {c0 : Char}
    (hsep : ∀ r, c0 ∉ r → sep r = none) (hc : c0 ∉ cs) :
    searchAll (bpNimAt sep) cs = none := by
  apply searchAll_none
  intro r hr
  cases hm : bpNimAt sep r with
  | none => rfl
  | some g =>
    exfalso
    unfold bpNimAt at hm
    obtain ⟨g1, r1, hr1, hk⟩ := repGreedy_some hm
    rw [hsep r1 (fun hx => hc (hr.subset (hr1.subset hx)))] at hk
    exact absurd hk (by simp)

/-- Generic failure of a NER blood-pressure pattern search when the
separator's witness character is absent. -/
theorem bpUnitsAt_search_none {cs : List Char}
    {sep : List Char → Option (List Char)} {c0 : Char}
    (hsep : ∀ r, c0 ∉ r → sep r = none) (hc : c0 ∉ cs) :
    searchAll (bpUnitsAt sep) cs = none := by
  apply searchAll_none
  intro r hr
  cases hm : bpUnitsAt sep r with
  | none => rfl
  | some g =>
    exfalso
    unfold bpUnitsAt repPlus at hm
    obtain ⟨g1, r1, hr1, hk⟩ := repGreedy_some hm
    have hno : c0 ∉ skipWs r1 := fun hx =>
      hc (hr.subset (hr1.subset ((List.dropWhile_suffix pySpace).subset hx)))
    rw [hsep (skipWs r1) hno] at hk
    exact absurd hk (by simp)

/-- A NIM blood-pressure pattern succeeds at position 0 on
`number, separator, number` when the separator recognizer accepts the
tail. -/
theorem bpNimAt_cons_some {sep : List Char → Option (List Char)}
    {a b : List Char} {c : Char} {t : List Char}
    (ha : BpNum a) (hb : BpNum b) (hc : c.isDigit = false)
    (hsep : sep (c :: t) = some b) :
    bpNimAt sep (a ++ c :: t) = some (a, b) := by
  unfold bpNimAt
  apply repGreedy23_bpnum_cons_some ha hc
  dsimp only
  rw [hsep]
  exact repGreedy23_bpnum_nil_some hb rfl

/-- A NER blood-pressure pattern succeeds at position 0 on
`number, separator, number` when the separator recognizer accepts the
whitespace-trimmed tail. -/
theorem bpUnitsAt_cons_some {sep : List Char → Option (List Char)}
    {a b : List Char} {c : Char} {t t2 : List Char}
    (ha : BpNum a) (hb : BpNum b) (hc : c.isDigit = false)
    (hsep : sep (skipWs (c :: t)) = some t2) (ht2 : skipWs t2 = b) :
    bpUnitsAt sep (a ++ c :: t) = some (a, b, none) := by
  unfold bpUnitsAt
  apply repPlus_bpnum_cons_some ha hc
  dsimp only
  rw [hsep]
  dsimp only
  rw [ht2]
  exact repPlus_bpnum_nil_some hb rfl

/-- `_normalize_fields` on a dict holding only `blood_pressure` reduces to
the blood-pressure pass. -/
theorem nimNormalize_bp_only (cs : List Char)
    (hstrip : pyStripList cs = cs) (hlower : cs.map pyLowerChar = cs)
    (hnull : chStr cs ∉ nullValuesNim) :
    nimNormalizeFields [("blood_pressure", chStr cs)] "" =
      nimBpBlock [("blood_pressure", chStr cs)]
        [("blood_pressure", chStr cs)] := by
  have hSs : pyStrip (chStr cs) = chStr cs := by
    show String.mk (pyStripList cs) = chStr cs
    rw [hstrip]
    rfl
  have hLs : pyLower (chStr cs) = chStr cs := by
    show String.mk (cs.map pyLowerChar) = chStr cs
    rw [hlower]
    rfl
  unfold nimNormalizeFields
  dsimp only
  rw [if_neg (by decide)]
  simp only [List.map_cons, List.map_nil]
  rw [hSs, hLs, if_neg hnull]
  have hhr : ∀ acc, nimHrBlock [("blood_pressure", chStr cs)] acc = acc :=
    fun acc => rfl
  have hoxy : ∀ acc, nimOxyBlock [("blood_pressure", chStr cs)] acc = acc :=
    fun acc => rfl
  have htmp : ∀ acc, nimTempBlock [("blood_pressure", chStr cs)] acc = acc :=
    fun acc => rfl
  have hglu : ∀ acc, nimGlucoseBlock [("blood_pressure", chStr cs)] acc = acc :=
    fun acc => rfl
  rw [hhr, hoxy, htmp, hglu]

/-- The blood-pressure pass when the first (slash) pattern matches. -/
theorem nimBpBlock_slash (cs a b : List Char) (hne : cs ≠ [])
    (hlower : cs.map pyLowerChar = cs) (hm : 'm' ∉ cs)
    (h1 : searchAll (bpNimAt sepSlashWs) cs = some (a, b)) :
    dGet (nimBpBlock [("blood_pressure", chStr cs)]
        [("blood_pressure", chStr cs)]) "blood_pressure"
      = some (chStr a ++ "/" ++ chStr b ++ " mmHg") := by
  have hLs : pyLower (chStr cs) = chStr cs := by
    show String.mk (cs.map pyLowerChar) = chStr cs
    rw [hlower]
    rfl
  have hcm : strContains (chStr cs) "mmhg" = false := containsSub_false hm
  unfold nimBpBlock
  rw [show dGet [("blood_pressure", chStr cs)] "blood_pressure"
    = some (chStr cs) from rfl]
  dsimp only
  rw [if_pos (chStr_ne_nil hne), hLs, hcm, if_neg (by decide)]
  simp only [List.foldl_cons, List.foldl_nil]
  rw [chStr_data, h1]
  rfl

/-- The blood-pressure pass when only the `su` pattern matches. -/
theorem nimBpBlock_su (cs a b : List Char) (hne : cs ≠ [])
    (hlower : cs.map pyLowerChar = cs) (hm : 'm' ∉ cs)
    (h1 : searchAll (bpNimAt sepSlashWs) cs = none)
    (h2 : searchAll (bpNimAt sepSlash) cs = none)
    (h3 : searchAll (bpNimAt sepSuWs) cs = some (a, b)) :
    dGet (nimBpBlock [("blood_pressure", chStr cs)]
        [("blood_pressure", chStr cs)]) "blood_pressure"
      = some (chStr a ++ "/" ++ chStr b ++ " mmHg") := by
  have hLs : pyLower (chStr cs) = chStr cs := by
    show String.mk (cs.map pyLowerChar) = chStr cs
    rw [hlower]
    rfl
  have hcm : strContains (chStr cs) "mmhg" = false := containsSub_false hm
  unfold nimBpBlock
  rw [show dGet [("blood_pressure", chStr cs)] "blood_pressure"
    = some (chStr cs) from rfl]
  dsimp only
  rw [if_pos (chStr_ne_nil hne), hLs, hcm, if_neg (by decide)]
  simp only [List.foldl_cons, List.foldl_nil]
  rw [chStr_data, h1]
  dsimp only
  rw [h2]
  dsimp only
  rw [h3]
  rfl

/-- The blood-pressure pass when only the dash pattern matches. -/
theorem nimBpBlock_dash (cs a b : List Char) (hne : cs ≠ [])
    (hlower : cs.map pyLowerChar = cs) (hm : 'm' ∉ cs)
    (h1 : searchAll (bpNimAt sepSlashWs) cs = none)
    (h2 : searchAll (bpNimAt sepSlash) cs = none)
    (h3 : searchAll (bpNimAt sepSuWs) cs = none)
    (h4 : searchAll (bpNimAt sepDashWs) cs = some (a, b)) :
    dGet (nimBpBlock [("blood_pressure", chStr cs)]
        [("blood_pressure", chStr cs)]) "blood_pressure"
      = some (chStr a ++ "/" ++ chStr b ++ " mmHg") := by
  have hLs : pyLower (chStr cs) = chStr cs := by
    show String.mk (cs.map pyLowerChar) = chStr cs
    rw [hlower]
    rfl
  have hcm : strContains (chStr cs) "mmhg" = false := containsSub_false hm
  unfold nimBpBlock
  rw [show dGet [("blood_pressure", chStr cs)] "blood_pressure"
    = some (chStr cs) from rfl]
  dsimp only
  rw [if_pos (chStr_ne_nil hne), hLs, hcm, if_neg (by decide)]
  simp only [List.foldl_cons, List.foldl_nil]
  rw [chStr_data, h1]
  dsimp only
  rw [h2]
  dsimp only
  rw [h3]
  dsimp only
  rw [h4]
  rfl

/-- `_extract_with_units` on a single text whose blood-pressure section
matches. -/
theorem extractWithUnits_single (t : String) (res : String)
    (hstrip : pyStrip t = t)
    (hbp : extractBpSection t.data "mmHg" = some res) :
    extractWithUnits [t] "mmHg" = res := by
  unfold extractWithUnits extractWithUnits.loop
  unfold extractWithUnitsOne
  dsimp only
  rw [if_neg (by decide), hstrip, if_pos (by decide), hbp]

/-- The blood-pressure section when the first (slash) pattern matches with
no trailing unit group. -/
theorem extractBpSection_slash (tc a b : List Char)
    (h1 : searchAll (bpUnitsAt (litRest ['/'])) tc = some (a, b, none)) :
    extractBpSection tc "mmHg" = some (chStr a ++ "/" ++ chStr b ++ " mmHg") := by
  unfold extractBpSection
  simp only [List.foldl_cons, List.foldl_nil]
  rw [h1]
  dsimp only
  rw [if_pos (by decide)]
  rw [str_append_assoc]
  rfl

/-- The blood-pressure section when only the `su` pattern matches. -/
theorem extractBpSection_su (tc a b : List Char)
    (h1 : searchAll (bpUnitsAt (litRest ['/'])) tc = none)
    (h2 : searchAll (bpUnitsAt (litRest ['s', 'u'])) tc = some (a, b, none)) :
    extractBpSection tc "mmHg" = some (chStr a ++ "/" ++ chStr b ++ " mmHg") := by
  unfold extractBpSection
  simp only [List.foldl_cons, List.foldl_nil]
  rw [h1]
  dsimp only
  rw [h2]
  dsimp only
  rw [if_pos (by decide)]
  rw [str_append_assoc]
  rfl

/-- The blood-pressure section when only the dash pattern matches. -/
theorem extractBpSection_dash (tc a b : List Char)
    (h1 : searchAll (bpUnitsAt (litRest ['/'])) tc = none)
    (h2 : searchAll (bpUnitsAt (litRest ['s', 'u'])) tc = none)
    (h3 : searchAll (bpUnitsAt (litRest ['-'])) tc = some (a, b, none)) :
    extractBpSection tc "mmHg" = some (chStr a ++ "/" ++ chStr b ++ " mmHg") := by
  unfold extractBpSection
  simp only [List.foldl_cons, List.foldl_nil]
  rw [h1]
  dsimp only
  rw [h2]
  dsimp only
  rw [h3]
  dsimp only
  rw [if_pos (by decide)]
  rw [str_append_assoc]
  rfl

theorem bpNum_map_lower {a : List Char} (ha : BpNum a) :
    a.map pyLowerChar = a := by
  rcases ha with ⟨x, y, rfl, hx, hy⟩ | ⟨x, y, z, rfl, hx, hy, hz⟩
  · simp [(decimalDigit_facts hx).2.2, (decimalDigit_facts hy).2.2]
  · simp [(decimalDigit_facts hx).2.2, (decimalDigit_facts hy).2.2,
      (decimalDigit_facts hz).2.2]

theorem bp_lower {a b : List Char} (s : List Char)
    (hs : s.map pyLowerChar = s) (ha : BpNum a) (hb : BpNum b) :
    (a ++ s ++ b).map pyLowerChar = a ++ s ++ b := by
  simp [List.map_append, bpNum_map_lower ha, bpNum_map_lower hb, hs]

theorem bp_not_mem {a b : List Char} {c : Char} (s : List Char)
    (hcs : c ∉ s) (ha : BpNum a) (hb : BpNum b)
    (hcd : c ∉ decimalDigits) : c ∉ a ++ s ++ b := by
  simp only [List.mem_append]
  push_neg
  exact ⟨⟨bpNum_not_mem ha hcd, hcs⟩, bpNum_not_mem hb hcd⟩

theorem bp_ne_nil {a b : List Char} (s : List Char) (ha : BpNum a) :
    a ++ s ++ b ≠ [] := by
  obtain ⟨x, r, ha1, hx⟩ := bpNum_head_digit ha
  rw [ha1]
  simp

theorem pyStripList_bp {a b : List Char} (s : List Char)
    (ha : BpNum a) (hb : BpNum b) :
    pyStripList (a ++ s ++ b) = a ++ s ++ b := by
  obtain ⟨x, r, ha1, hx⟩ := bpNum_head_digit ha
  have hfront : (a ++ s ++ b).dropWhile pySpace = a ++ s ++ b := by
    rw [ha1]
    rw [show (x :: r) ++ s ++ b = x :: (r ++ s ++ b) from by simp]
    simp [List.dropWhile_cons, (decimalDigit_facts hx).2.1]
  unfold pyStripList
  rw [hfront]
  rcases hb with ⟨u, v, hb1, hu, hv⟩ | ⟨u, v, w, hb1, hu, hv, hw⟩
  · rw [hb1]
    simp [List.reverse_append, List.dropWhile_cons,
      (decimalDigit_facts hv).2.1]
  · rw [hb1]
    simp [List.reverse_append, List.dropWhile_cons,
      (decimalDigit_facts hw).2.1]

theorem not_null_nim {s : String} (h : s ∉ nullValues) : s ∉ nullValuesNim := by
  intro hm
  apply h
  simp only [nullValuesNim, List.mem_cons, List.not_mem_nil, or_false] at hm
  simp only [nullValues, List.mem_cons, List.not_mem_nil, or_false]
  tauto

theorem bp_not_null {a b : List Char} (s : List Char)
    (ha : BpNum a) (_hb : BpNum b) :
    chStr (a ++ s ++ b) ∉ nullValues := by
  obtain ⟨x, r, ha1, hx⟩ := bpNum_head_digit ha
  rw [ha1]
  rw [show (x :: r) ++ s ++ b = x :: (r ++ s ++ b) from by simp]
  exact digit_head_not_null _ hx

theorem nimBp_sep_slash (a b : List Char) (ha : BpNum a) (hb : BpNum b) :
    dGet (nimNormalizeFields [("blood_pressure", chStr (a ++ ['/'] ++ b))] "")
      "blood_pressure" = some (chStr a ++ "/" ++ chStr b ++ " mmHg") := by
  rw [nimNormalize_bp_only _ (pyStripList_bp _ ha hb)
    (bp_lower _ (by decide) ha hb) (not_null_nim (bp_not_null _ ha hb))]
  apply nimBpBlock_slash _ _ _ (bp_ne_nil _ ha) (bp_lower _ (by decide) ha hb)
    (bp_not_mem _ (by decide) ha hb (by decide))
  rw [List.append_assoc]
  exact searchAll_head (bpNimAt_cons_some ha hb (by decide)
    (sepSlashWs_slash (bpNum_skipWs hb)))

theorem nimBp_sep_slash_sp (a b : List Char) (ha : BpNum a) (hb : BpNum b) :
    dGet (nimNormalizeFields
        [("blood_pressure", chStr (a ++ [' ', '/', ' '] ++ b))] "")
      "blood_pressure" = some (chStr a ++ "/" ++ chStr b ++ " mmHg") := by
  rw [nimNormalize_bp_only _ (pyStripList_bp _ ha hb)
    (bp_lower _ (by decide) ha hb) (not_null_nim (bp_not_null _ ha hb))]
  apply nimBpBlock_slash _ _ _ (bp_ne_nil _ ha) (bp_lower _ (by decide) ha hb)
    (bp_not_mem _ (by decide) ha hb (by decide))
  rw [List.append_assoc]
  exact searchAll_head (bpNimAt_cons_some ha hb (by decide)
    (sepSlashWs_spaced (bpNum_skipWs hb)))

theorem nimBp_sep_dash (a b : List Char) (ha : BpNum a) (hb : BpNum b) :
    dGet (nimNormalizeFields [("blood_pressure", chStr (a ++ ['-'] ++ b))] "")
      "blood_pressure" = some (chStr a ++ "/" ++ chStr b ++ " mmHg") := by
  rw [nimNormalize_bp_only _ (pyStripList_bp _ ha hb)
    (bp_lower _ (by decide) ha hb) (not_null_nim (bp_not_null _ ha hb))]
  apply nimBpBlock_dash _ _ _ (bp_ne_nil _ ha) (bp_lower _ (by decide) ha hb)
    (bp_not_mem _ (by decide) ha hb (by decide))
  · exact bpNimAt_search_none (fun r h => sepSlashWs_none h)
      (bp_not_mem _ (by decide) ha hb (by decide))
  · exact bpNimAt_search_none (fun r h => sepSlash_none h)
      (bp_not_mem _ (by decide) ha hb (by decide))
  · exact bpNimAt_search_none (fun r h => sepSuWs_none h)
      (bp_not_mem _ (by decide) ha hb (by decide))
  · rw [List.append_assoc]
    exact searchAll_head (bpNimAt_cons_some ha hb (by decide)
      (sepDashWs_dash (bpNum_skipWs hb)))

theorem nimBp_sep_dash_sp (a b : List Char) (ha : BpNum a) (hb : BpNum b) :
    dGet (nimNormalizeFields
        [("blood_pressure", chStr (a ++ [' ', '-', ' '] ++ b))] "")
      "blood_pressure" = some (chStr a ++ "/" ++ chStr b ++ " mmHg") := by
  rw [nimNormalize_bp_only _ (pyStripList_bp _ ha hb)
    (bp_lower _ (by decide) ha hb) (not_null_nim (bp_not_null _ ha hb))]
  apply nimBpBlock_dash _ _ _ (bp_ne_nil _ ha) (bp_lower _ (by decide) ha hb)
    (bp_not_mem _ (by decide) ha hb (by decide))
  · exact bpNimAt_search_none (fun r h => sepSlashWs_none h)
      (bp_not_mem _ (by decide) ha hb (by decide))
  · exact bpNimAt_search_none (fun r h => sepSlash_none h)
      (bp_not_mem _ (by decide) ha hb (by decide))
  · exact bpNimAt_search_none (fun r h => sepSuWs_none h)
      (bp_not_mem _ (by decide) ha hb (by decide))
  · rw [List.append_assoc]
    exact searchAll_head (bpNimAt_cons_some ha hb (by decide)
      (sepDashWs_spaced (bpNum_skipWs hb)))

theorem nimBp_sep_su_sp (a b : List Char) (ha : BpNum a) (hb : BpNum b) :
    dGet (nimNormalizeFields
        [("blood_pressure", chStr (a ++ [' ', 's', 'u', ' '] ++ b))] "")
      "blood_pressure" = some (chStr a ++ "/" ++ chStr b ++ " mmHg") := by
  rw [nimNormalize_bp_only _ (pyStripList_bp _ ha hb)
    (bp_lower _ (by decide) ha hb) (not_null_nim (bp_not_null _ ha hb))]
  apply nimBpBlock_su _ _ _ (bp_ne_nil _ ha) (bp_lower _ (by decide) ha hb)
    (bp_not_mem _ (by decide) ha hb (by decide))
  · exact bpNimAt_search_none (fun r h => sepSlashWs_none h)
      (bp_not_mem _ (by decide) ha hb (by decide))
  · exact bpNimAt_search_none (fun r h => sepSlash_none h)
      (bp_not_mem _ (by decide) ha hb (by decide))
  · rw [List.append_assoc]
    exact searchAll_head (bpNimAt_cons_some ha hb (by decide)
      (sepSuWs_spaced (bpNum_skipWs hb)))

theorem nerBp_sep_slash (a b : List Char) (ha : BpNum a) (hb : BpNum b) :
    extractWithUnits [chStr (a ++ ['/'] ++ b)] "mmHg"
      = chStr a ++ "/" ++ chStr b ++ " mmHg" := by
  apply extractWithUnits_single
  · show String.mk (pyStripList (a ++ ['/'] ++ b)) = _
    rw [pyStripList_bp _ ha hb]
    rfl
  · rw [chStr_data]
    apply extractBpSection_slash
    rw [List.append_assoc]
    exact searchAll_head (bpUnitsAt_cons_some ha hb (by decide) rfl
      (bpNum_skipWs hb))

theorem nerBp_sep_slash_sp (a b : List Char) (ha : BpNum a) (hb : BpNum b) :
    extractWithUnits [chStr (a ++ [' ', '/', ' '] ++ b)] "mmHg"
      = chStr a ++ "/" ++ chStr b ++ " mmHg" := by
  apply extractWithUnits_single
  · show String.mk (pyStripList (a ++ [' ', '/', ' '] ++ b)) = _
    rw [pyStripList_bp _ ha hb]
    rfl
  · rw [chStr_data]
    apply extractBpSection_slash
    rw [List.append_assoc]
    exact searchAll_head (bpUnitsAt_cons_some ha hb (by decide) rfl
      (bpNum_skipWs hb))

theorem nerBp_sep_su (a b : List Char) (ha : BpNum a) (hb : BpNum b) :
    extractWithUnits [chStr (a ++ ['s', 'u'] ++ b)] "mmHg"
      = chStr a ++ "/" ++ chStr b ++ " mmHg" := by
  apply extractWithUnits_single
  · show String.mk (pyStripList (a ++ ['s', 'u'] ++ b)) = _
    rw [pyStripList_bp _ ha hb]
    rfl
  · rw [chStr_data]
    apply extractBpSection_su
    · exact bpUnitsAt_search_none (fun r h => litRest_none h)
        (bp_not_mem _ (by decide) ha hb (by decide))
    · rw [List.append_assoc]
      exact searchAll_head (bpUnitsAt_cons_some ha hb (by decide) rfl
        (bpNum_skipWs hb))

theorem nerBp_sep_su_sp (a b : List Char) (ha : BpNum a) (hb : BpNum b) :
    extractWithUnits [chStr (a ++ [' ', 's', 'u', ' '] ++ b)] "mmHg"
      = chStr a ++ "/" ++ chStr b ++ " mmHg" := by
  apply extractWithUnits_single
  · show String.mk (pyStripList (a ++ [' ', 's', 'u', ' '] ++ b)) = _
    rw [pyStripList_bp _ ha hb]
    rfl
  · rw [chStr_data]
    apply extractBpSection_su
    · exact bpUnitsAt_search_none (fun r h => litRest_none h)
        (bp_not_mem _ (by decide) ha hb (by decide))
    · rw [List.append_assoc]
      exact searchAll_head (bpUnitsAt_cons_some ha hb (by decide) rfl
        (bpNum_skipWs hb))

theorem nerBp_sep_dash (a b : List Char) (ha : BpNum a) (hb : BpNum b) :
    extractWithUnits [chStr (a ++ ['-'] ++ b)] "mmHg"
      = chStr a ++ "/" ++ chStr b ++ " mmHg" := by
  apply extractWithUnits_single
  · show String.mk (pyStripList (a ++ ['-'] ++ b)) = _
    rw [pyStripList_bp _ ha hb]
    rfl
  · rw [chStr_data]
    apply extractBpSection_dash
    · exact bpUnitsAt_search_none (fun r h => litRest_none h)
        (bp_not_mem _ (by decide) ha hb (by decide))
    · exact bpUnitsAt_search_none (fun r h => litRest_none h)
        (bp_not_mem _ (by decide) ha hb (by decide))
    · rw [List.append_assoc]
      exact searchAll_head (bpUnitsAt_cons_some ha hb (by decide) rfl
        (bpNum_skipWs hb))

theorem nerBp_sep_dash_sp (a b : List Char) (ha : BpNum a) (hb : BpNum b) :
    extractWithUnits [chStr (a ++ [' ', '-', ' '] ++ b)] "mmHg"
      = chStr a ++ "/" ++ chStr b ++ " mmHg" := by
  apply extractWithUnits_single
  · show String.mk (pyStripList (a ++ [' ', '-', ' '] ++ b)) = _
    rw [pyStripList_bp _ ha hb]
    rfl
  · rw [chStr_data]
    apply extractBpSection_dash
    · exact bpUnitsAt_search_none (fun r h => litRest_none h)
        (bp_not_mem _ (by decide) ha hb (by decide))
    · exact bpUnitsAt_search_none (fun r h => litRest_none h)
        (bp_not_mem _ (by decide) ha hb (by decide))
    · rw [List.append_assoc]
      exact searchAll_head (bpUnitsAt_cons_some ha hb (by decide) rfl
        (bpNum_skipWs hb))

/-- C7 (amended): separator invariance of blood-pressure normalization
holds for the separators each backend actually recognizes, but the two
backends accept different whitespace around `su`: for in-range readings,
the NVIDIA normalizer maps `sys/dia`, `sys / dia`, `sys-dia`, `sys - dia`
and `sys su dia` (spaces required around `su`) to `"sys/dia mmHg"`, and
the NER unit extractor additionally accepts `sysudia`-style `su` with no
spaces; the NVIDIA patterns blank `"<sys>su<dia>"` written without spaces
instead of normalizing it (see `c7_cex`). -/
theorem c7_bp_separator_invariance (sys dia : Nat)
    (h1 : 50 ≤ sys) (h2 : sys ≤ 250) (h3 : 30 ≤ dia) (h4 : dia ≤ 150)
    (_h5 : dia < sys) :
    (∀ s ∈ (["/", " / ", "-", " - ", " su "] : List String),
      dGet (nimNormalizeFields
          [("blood_pressure", natStr sys ++ s ++ natStr dia)] "")
        "blood_pressure"
        = some (natStr sys ++ "/" ++ natStr dia ++ " mmHg")) ∧
    (∀ s ∈ (["/", " / ", "su", " su ", "-", " - "] : List String),
      extractWithUnits [natStr sys ++ s ++ natStr dia] "mmHg"
        = natStr sys ++ "/" ++ natStr dia ++ " mmHg") := by
  have ha : BpNum (natChars sys) := bpNum_natChars (by omega) (by omega)
  have hb : BpNum (natChars dia) := bpNum_natChars (by omega) (by omega)
  constructor
  · intro s hs
    simp only [List.mem_cons, List.not_mem_nil, or_false] at hs
    rcases hs with rfl | rfl | rfl | rfl | rfl
    · exact nimBp_sep_slash _ _ ha hb
    · exact nimBp_sep_slash_sp _ _ ha hb
    · exact nimBp_sep_dash _ _ ha hb
    · exact nimBp_sep_dash_sp _ _ ha hb
    · exact nimBp_sep_su_sp _ _ ha hb
  · intro s hs
    simp only [List.mem_cons, List.not_mem_nil, or_false] at hs
    rcases hs with rfl | rfl | rfl | rfl | rfl | rfl
    · exact nerBp_sep_slash _ _ ha hb
    · exact nerBp_sep_slash_sp _ _ ha hb
    · exact nerBp_sep_su _ _ ha hb
    · exact nerBp_sep_su_sp _ _ ha hb
    · exact nerBp_sep_dash _ _ ha hb
    · exact nerBp_sep_dash_sp _ _ ha hb

/-- C7 witness: the theorem at the concrete reading 120/70 with the spaced
`su` separator (NVIDIA) and the unspaced `su` separator (NER). -/
theorem c7_witness :
    dGet (nimNormalizeFields
        [("blood_pressure", natStr 120 ++ " su " ++ natStr 70)] "")
      "blood_pressure" = some (natStr 120 ++ "/" ++ natStr 70 ++ " mmHg") ∧
    extractWithUnits [natStr 120 ++ "su" ++ natStr 70] "mmHg"
      = natStr 120 ++ "/" ++ natStr 70 ++ " mmHg" :=
  ⟨(c7_bp_separator_invariance 120 70 (by decide) (by decide) (by decide)
      (by decide) (by decide)).1 " su " (by decide),
   (c7_bp_separator_invariance 120 70 (by decide) (by decide) (by decide)
      (by decide) (by decide)).2 "su" (by decide)⟩

/-- C7 counterexample: `"120su70"` — the `su` separator with no embedded
whitespace — is blanked by the NVIDIA normalizer (its pattern demands
`\s+su\s+` and the findall fallback sees no all-digit word), while the NER
extractor normalizes it, so the claimed spacing-independence is false on
the code. -/
theorem c7_cex :
    dGet (nimNormalizeFields [("blood_pressure", "120su70")] "")
      "blood_pressure" = some "" ∧
    extractWithUnits ["120su70"] "mmHg" = "120/70 mmHg" := by
  exact ⟨by decide, by decide⟩

/-- C10 (amended): the null-marker scrub blanks every field in the NVIDIA
normalizer, but the NER normalizer re-instates the marker for the five
unit-bearing fields: for every canonical key and every marker spelling
(any case, with or without surrounding whitespace), the NVIDIA normalizer
returns `""` for the field, while the NER normalizer returns the stripped
original marker for `heart_rate`, `oxygenation`, `temperature`,
`blood_glucose` and `blood_pressure` (its vital-sign pass reads the
pre-scrub value and falls back to `value_str.strip()` when no number is
found) and `""` for every other field. -/
theorem c10_null_scrub :
    ∀ k ∈ canonicalKeys,
      ∀ v ∈ (["unknown", "na", "n/a", "null", "none", "sconosciuto",
              "Unknown", " NULL ", "N/A", "None", "SCONOSCIUTO",
              " na"] : List String),
        dGet (nimNormalizeFields [(k, v)] "") k = some "" ∧
        dGet (normalizeFieldsWithUnits [(k, v)] "") k =
          (if k ∈ (["heart_rate", "oxygenation", "temperature",
              "blood_glucose", "blood_pressure"] : List String) then
            some (pyStrip v)
           else some "") := by
  decide

/-- C10 witness: the theorem at the concrete key `gender` and marker
`"unknown"` (a non-vital field: both normalizers blank it). -/
theorem c10_witness :
    dGet (nimNormalizeFields [("gender", "unknown")] "") "gender" = some "" ∧
    dGet (normalizeFieldsWithUnits [("gender", "unknown")] "") "gender" =
      (if ("gender" : String) ∈ (["heart_rate", "oxygenation", "temperature",
          "blood_glucose", "blood_pressure"] : List String) then
        some (pyStrip "unknown")
       else some "") :=
  c10_null_scrub "gender" (by decide) "unknown" (by decide)

/-- C10 counterexample: the placeholder `"unknown"` in `heart_rate`
survives NER normalization verbatim, so "no such placeholder ever appears
in the returned extracted_data" is false on the code. -/
theorem c10_cex :
    dGet (normalizeFieldsWithUnits [("heart_rate", "unknown")] "")
      "heart_rate" = some "unknown" := by
  decide
